import Mathlib

/-!
Verification development for the AI_Dungeon simulation core (`app/game.py`,
`app/items.py`).  The Python code is shallowly embedded: grids become
functions from integer coordinates, Python dicts become functions into
`Option`, floats used for weights/positions become rationals, and the
global Mersenne-Twister random source is abstracted as a deterministic
state machine threaded explicitly through every function that draws from
it.  Definitions mirror the corresponding Python functions, keeping their
names where possible.
-/

namespace AID

/-! ## Board constants (game.py lines 127-147) -/

def SCREEN_WIDTH : ℤ := 1280
def SCREEN_HEIGHT : ℤ := 720
def SIDEBAR_WIDTH : ℤ := 240
def BORDER : ℤ := 4
def GAME_X : ℤ := SIDEBAR_WIDTH + BORDER
def GAME_W : ℤ := SCREEN_WIDTH - GAME_X - BORDER
def GAME_H : ℤ := SCREEN_HEIGHT - 2 * BORDER
def TILE_SIZE : ℤ := 4
def GRID_W : ℤ := 256
def GRID_H : ℤ := 128
def BOARD_PX_W : ℤ := GRID_W * TILE_SIZE
def BOARD_PX_H : ℤ := GRID_H * TILE_SIZE
def BOARD_ORIGIN_X : ℤ := GAME_X + (GAME_W - BOARD_PX_W) / 2
def BOARD_ORIGIN_Y : ℤ := BORDER + (GAME_H - BOARD_PX_H) / 2

/-- Tile kinds (game.py: `EMPTY = 0`, `WALL = 1`). -/
def EMPTY : ℕ := 0

def WALL : ℕ := 1

/-- A tile grid, indexed as `g y x` like the Python `grid[y][x]`. -/
abbrev Grid := ℤ → ℤ → ℕ

/-- A grid cell `(cx, cy)`. -/
abbrev Cell := ℤ × ℤ

/-- `cell_to_px` (game.py lines 1746-1750). -/
def cell_to_px (c : Cell) : ℤ × ℤ :=
  (BOARD_ORIGIN_X + c.1 * TILE_SIZE, BOARD_ORIGIN_Y + c.2 * TILE_SIZE)

/-! ## The random source

Modelled from the spec: "an optional seed value, if provided, seeds the
random source before generation so the same seed reproduces the same maze,
biome field, and placements".  The Python `random` module (stdlib, not part
of this repository) is abstracted as an arbitrary deterministic pseudo-random
state machine: a state type, a seeding function, and pure draw functions that
return a value together with the successor state.  The contract fields
record the documented ranges of the draws (`randrange(a, b)` lands in
`[a, b)`, `shuffle` permutes, `random()` lands in `[0, 1)`). -/

structure RngImpl where
  State : Type
  seedFn : String → State
  randrange : State → ℤ → ℤ → ℤ × State
  randint : State → ℤ → ℤ → ℤ × State
  shuffle : {α : Type} → List α → State → List α × State
  rand01 : State → ℚ × State
  uniform : State → ℚ → ℚ → ℚ × State
  choiceIdx : State → ℕ → ℕ × State
  randrange_mem : ∀ s a b, a < b → a ≤ (randrange s a b).1 ∧ (randrange s a b).1 < b
  randint_mem : ∀ s a b, a ≤ b → a ≤ (randint s a b).1 ∧ (randint s a b).1 ≤ b
  shuffle_perm : ∀ {α : Type} (l : List α) (s : State), (shuffle l s).1.Perm l
  choiceIdx_lt : ∀ s n, 0 < n → (choiceIdx s n).1 < n

/-- A concrete linear-congruential implementation of the random source,
used only to instantiate witnesses of theorems that quantify over the
`RngImpl`. -/
def lcgNext (s : ℕ) : ℕ := (1103515245 * s + 12345) % 2147483648

/-- Deterministic hash used as the concrete seeding function. -/
def lcgSeed (str : String) : ℕ :=
  str.foldl (fun a c => (a * 31 + c.toNat) % 2147483648) 7

def natRng : RngImpl where
  State := ℕ
  seedFn := lcgSeed
  randrange s a b := (a + ((lcgNext s : ℤ) % (b - a)), lcgNext s)
  randint s a b := (a + ((lcgNext s : ℤ) % (b - a + 1)), lcgNext s)
  shuffle l s := (l, lcgNext s)
  rand01 s := ((1 : ℚ) / 2, lcgNext s)
  uniform s a _b := (a, lcgNext s)
  choiceIdx s n := (lcgNext s % n, lcgNext s)
  randrange_mem := by
    intro s a b hab
    have hba : (0 : ℤ) < b - a := by omega
    have h1 : 0 ≤ (lcgNext s : ℤ) % (b - a) := Int.emod_nonneg _ (by omega)
    have h2 : (lcgNext s : ℤ) % (b - a) < b - a := Int.emod_lt_of_pos _ hba
    constructor <;> simp <;> omega
  randint_mem := by
    intro s a b hab
    have hba : (0 : ℤ) < b - a + 1 := by omega
    have h1 : 0 ≤ (lcgNext s : ℤ) % (b - a + 1) := Int.emod_nonneg _ (by omega)
    have h2 : (lcgNext s : ℤ) % (b - a + 1) < b - a + 1 := Int.emod_lt_of_pos _ hba
    constructor <;> simp <;> omega
  shuffle_perm := by intro α l s; exact List.Perm.refl l
  choiceIdx_lt := by intro s n hn; exact Nat.mod_lt _ hn

/-! ## Item catalog (items.py) -/

/-- The stats block of an item type (items.py `Stats`); only the fields the
verified code paths read are carried.  A missing key is `none`. -/
structure ItemStats where
  weight : Option ℚ := none
  durability : Option ℤ := none
  capacity_weight : Option ℚ := none
  wall_damage : Option ℤ := none
deriving DecidableEq

/-- One `maycontain` roll-table entry of a container item type.  Missing
keys are `none`; Python's `int(x or d)` default-on-zero is applied at the
use site. -/
structure ContainerEntry where
  item : String := ""
  weight : Option ℚ := none
  min : Option ℤ := none
  max : Option ℤ := none
deriving DecidableEq

/-- An item type record (items.py `ItemType`). -/
structure ItemType where
  name : String := ""
  allowed_slots : List String := []
  stats : ItemStats := {}
  active : Bool := true
  special : Bool := false
  container : Bool := false
  numberitems : Option ℤ := none
  maycontain : List ContainerEntry := []
deriving DecidableEq

/-- `ITEM_DB` as an ordered association list (Python dicts preserve
insertion order); lookups mirror `ITEM_DB.get`. -/
abbrev ItemCatalog := List (String × ItemType)

def dbGet (db : ItemCatalog) (item_id : String) : Option ItemType :=
  (db.find? (fun p => p.1 = item_id)).map Prod.snd

/-- `get_weight` (items.py lines 69-71): `stats.get('weight', 0.0)` of the
item, `0.0` when the item is unknown. -/
def get_weight (db : ItemCatalog) (item_id : String) : ℚ :=
  match dbGet db item_id with
  | some it => it.stats.weight.getD 0
  | none => 0

/-- `backpack_capacity` (items.py lines 79-81). -/
def backpack_capacity (db : ItemCatalog) (item_id : String) : ℚ :=
  match dbGet db item_id with
  | some it => it.stats.capacity_weight.getD 0
  | none => 0

/-! ## Player inventory state (game.py) -/

/-- A per-player item instance (entries of `players[sid]['items']`); every
instance records its item-type id, and optionally a current durability. -/
structure ItemInst where
  type : String
  durability : Option ℤ := none
deriving DecidableEq

/-- The slice of a server-side player record that the inventory and mining
code paths touch. -/
structure Pdata where
  equipment : String → Option String
  items : String → Option ItemInst
  inventory : List String
  backpack_weight_used : ℚ

/-- `backpack_capacity_for_player` (game.py lines 985-993). -/
def backpack_capacity_for_player (db : ItemCatalog) (pdata : Pdata) : ℚ :=
  match pdata.equipment "backpack" with
  | none => 0
  | some inst_id =>
    match pdata.items inst_id with
    | some inst => backpack_capacity db inst.type
    | none => 0

/-- `try_add_instance_to_backpack` (game.py lines 996-1015).  Returns the
updated player record and the Python function's boolean result. -/
def try_add_instance_to_backpack (db : ItemCatalog) (pdata : Pdata)
    (inst_id : String) : Pdata × Bool :=
  let cap := backpack_capacity_for_player db pdata
  if cap ≤ 0 then (pdata, false)
  else
    match pdata.items inst_id with
    | none => (pdata, false)
    | some inst =>
      let used := pdata.backpack_weight_used
      let w := get_weight db inst.type
      if used + w ≤ cap + 1 / 1000000 then
        ({ pdata with
            inventory :=
              if inst_id ∈ pdata.inventory then pdata.inventory
              else pdata.inventory ++ [inst_id],
            backpack_weight_used := used + w }, true)
      else (pdata, false)

/-- C6: for every player state and item instance, `try_add_instance_to_backpack`
succeeds iff the equipped backpack capacity is positive and the used weight
plus the item's weight stays within capacity up to an epsilon of 1e-6; on
success the used weight grows by exactly the item's weight (and stays within
capacity plus epsilon), on failure the record is unchanged. -/
theorem C6_backpack_weight_budget (db : ItemCatalog) (pdata : Pdata)
    (inst_id : String) (inst : ItemInst)
    (hinst : pdata.items inst_id = some inst) :
    ((try_add_instance_to_backpack db pdata inst_id).2 = true ↔
      (0 < backpack_capacity_for_player db pdata ∧
        pdata.backpack_weight_used + get_weight db inst.type ≤
          backpack_capacity_for_player db pdata + 1 / 1000000)) ∧
    ((try_add_instance_to_backpack db pdata inst_id).2 = true →
      (try_add_instance_to_backpack db pdata inst_id).1.backpack_weight_used =
        pdata.backpack_weight_used + get_weight db inst.type ∧
      (try_add_instance_to_backpack db pdata inst_id).1.backpack_weight_used ≤
        backpack_capacity_for_player db pdata + 1 / 1000000) ∧
    ((try_add_instance_to_backpack db pdata inst_id).2 = false →
      (try_add_instance_to_backpack db pdata inst_id).1 = pdata) := by
  by_cases h1 : backpack_capacity_for_player db pdata ≤ 0
  · have hout : try_add_instance_to_backpack db pdata inst_id = (pdata, false) := by
      unfold try_add_instance_to_backpack
      rw [if_pos h1]
    rw [hout]
    refine ⟨⟨fun h => absurd h (by simp), fun h => absurd h.1 (not_lt.2 h1)⟩,
      fun h => absurd h (by simp), fun _ => rfl⟩
  · by_cases h2 : pdata.backpack_weight_used + get_weight db inst.type ≤
        backpack_capacity_for_player db pdata + 1 / 1000000
    · have hout : try_add_instance_to_backpack db pdata inst_id =
          ({ pdata with
              inventory :=
                if inst_id ∈ pdata.inventory then pdata.inventory
                else pdata.inventory ++ [inst_id],
              backpack_weight_used :=
                pdata.backpack_weight_used + get_weight db inst.type }, true) := by
        unfold try_add_instance_to_backpack
        rw [if_neg h1, hinst]
        simp only [if_pos h2]
      rw [hout]
      exact ⟨⟨fun _ => ⟨not_le.1 h1, h2⟩, fun _ => rfl⟩,
        fun _ => ⟨rfl, h2⟩, fun h => absurd h (by simp)⟩
    · have hout : try_add_instance_to_backpack db pdata inst_id = (pdata, false) := by
        unfold try_add_instance_to_backpack
        rw [if_neg h1, hinst]
        simp only [if_neg h2]
      rw [hout]
      exact ⟨⟨fun h => absurd h (by simp), fun h => absurd h.2 h2⟩,
        fun h => absurd h (by simp), fun _ => rfl⟩

/-- Witness instantiating `C6_backpack_weight_budget` at a concrete player
(capacity 10, used 3, item weight 2). -/
theorem C6_backpack_weight_budget_witness :
    let db : ItemCatalog :=
      [("bag", { stats := { capacity_weight := some 10 } }),
       ("rock", { stats := { weight := some 2 } })]
    let pdata : Pdata :=
      { equipment := fun s => if s = "backpack" then some "i1" else none,
        items := fun s =>
          if s = "i1" then some { type := "bag" }
          else if s = "i2" then some { type := "rock" } else none,
        inventory := ["i1"],
        backpack_weight_used := 3 }
    (try_add_instance_to_backpack db pdata "i2").2 = true := by
  intro db pdata
  refine ((C6_backpack_weight_budget db pdata "i2" { type := "rock" } rfl).1).2 ⟨?_, ?_⟩
  · rw [show backpack_capacity_for_player db pdata = 10 from rfl]
    norm_num
  · rw [show backpack_capacity_for_player db pdata = 10 from rfl,
      show get_weight db { type := "rock" : ItemInst }.type = 2 from rfl,
      show pdata.backpack_weight_used = 3 from rfl]
    norm_num

/-! ## Wall type catalog (game.py `get_wall_type_map`, wall_types.json) -/

/-- Stats block of a wall type; `damage`/`damaged` is the return damage a
wall inflicts on the tool. -/
structure WallStats where
  durability : Option ℤ := none
  damage : Option ℤ := none
  damaged : Option ℤ := none
deriving DecidableEq

/-- A wall type record; `damage_items` is the optional allow-list of item
type ids that are effective against this wall type. -/
structure WallType where
  stats : WallStats := {}
  damage_items : Option (List String) := none
deriving DecidableEq

/-- The wall type catalog as an ordered association list (`_WALL_TYPE_MAP`
keyed by 'type', insertion order preserved). -/
abbrev WallCatalog := List (String × WallType)

def wtGet (cat : WallCatalog) (wt_id : String) : Option WallType :=
  (cat.find? (fun p => p.1 = wt_id)).map Prod.snd

/-- `_hp_max_for_type` (game.py lines 776-779) and the identical local
computation at line 2592: `max(1, int(stats.get('durability', 1) or 1))`.
Python's `or 1` maps a zero durability to 1. -/
def hp_max_for_type (cat : WallCatalog) (wt_id : String) : ℤ :=
  let stats := match wtGet cat wt_id with
    | some i => i.stats
    | none => {}
  let d := stats.durability.getD 1
  max 1 (if d = 0 then 1 else d)

/-- A world entity (entries of `world_entities`); only the fields the
verified code paths read are carried. -/
structure EntityRec where
  type : String := "item"
  item_id : String
  pos : ℚ × ℚ
  container : Bool := false
  contents : List (String × ℤ) := []
deriving DecidableEq

/-! ## Wall mining (game.py run_game, lines 2542-2705)

The pending-hand-action block of the tick loop.  The modeled state gathers
the pieces of global and per-player state the block reads or writes; the
socket emissions (equip snapshots, FX cues) are pure I/O and are not part
of the state. -/

structure MineWorld where
  grid : Grid
  wall_hp : ℤ → ℤ → ℤ
  wall_type_id : ℤ → ℤ → String
  equipment : String → Option String
  items : String → Option ItemInst
  inventory : List String
  world_entities : List EntityRec

/-- `wall_damage = int(stats.get('wall_damage', 0) or 0)` for the wielded
item type (game.py lines 2550-2553). -/
def wall_damage_of (db : ItemCatalog) (type_id : String) : ℤ :=
  match dbGet db type_id with
  | some t => t.stats.wall_damage.getD 0
  | none => 0

/-- The wall-type damage gating (game.py lines 2571-2580): a hit is allowed
unless the wall type declares a `damage_items` list that omits the wielded
item type. -/
def allowHit (wcat : WallCatalog) (w : MineWorld) (t : Cell)
    (type_id : String) : Bool :=
  match wtGet wcat (w.wall_type_id t.2 t.1) with
  | some info =>
    match info.damage_items with
    | some l => type_id ∈ l
    | none => true
  | none => true

/-- `dirDelta`: facing direction to front-tile delta (game.py lines
2556-2566). -/
def dirDelta (d : String) : ℤ × ℤ :=
  if d = "up" then (0, -1)
  else if d = "down" then (0, 1)
  else if d = "left" then (-1, 0)
  else if d = "right" then (1, 0)
  else (0, 0)

/-- The tool-return-damage block (game.py lines 2599-2630), applied after
the wall update.  A wall deals its `damage` (falling back to `damaged`)
stat to the wielded instance's durability; at durability 0 the tool is
unequipped and its instance record removed from inventory and items.
The degenerate case of an equipped id with no instance record is modeled
as a no-op; it can reach this block only through a catalog entry whose id
is the empty string. -/
def toolReturnDamage (wt_stats : WallStats) (it : Option ItemType)
    (act : String) (inst_id : Option String) (inst : Option ItemInst)
    (w : MineWorld) : MineWorld :=
  match inst_id, inst with
  | some iid, some i0 =>
    let base_dur := match it with
      | some t => t.stats.durability.getD 0
      | none => 0
    let i1 := if i0.durability = none
      then { i0 with durability := some base_dur } else i0
    let items1 := fun k => if k = iid then some i1 else w.items k
    let td := match wt_stats.damage with
      | some v => some v
      | none => wt_stats.damaged
    let tool_damage := td.getD 0
    if 0 < tool_damage then
      let cur := i1.durability.getD 0
      let new_dur := max 0 (cur - tool_damage)
      let i2 := { i1 with durability := some new_dur }
      let items2 := fun k => if k = iid then some i2 else w.items k
      if new_dur ≤ 0 then
        { w with
            equipment := fun s =>
              if s = act ++ "_hand" ∧ w.equipment (act ++ "_hand") = some iid
              then none else w.equipment s,
            items := fun k => if k = iid then none else items2 k,
            inventory := w.inventory.erase iid }
      else { w with items := items2 }
    else { w with items := items1 }
  | _, _ => w

/-- The pending-hand-action block (game.py lines 2542-2705).  Resolves the
equipped instance in the acting hand; with a positive wall-damage stat the
tile in front of the player is mined (allow-list gating, hp decrement
clamped at 0, breakage to EMPTY, tool return damage), otherwise the action
is an interaction that leaves the modeled state unchanged (lore reading
touches only the player's knowledge set).  Returns the updated world and
the `did_hit` flag. -/
def processHandAction (wcat : WallCatalog) (db : ItemCatalog)
    (w : MineWorld) (act : String) (cell : Cell) (facing : String) :
    MineWorld × Bool :=
  let inst_id := w.equipment (act ++ "_hand")
  let inst := match inst_id with
    | some iid => w.items iid
    | none => none
  let type_id := match inst with
    | some i => i.type
    | none => ""
  let it := dbGet db type_id
  let wall_damage := wall_damage_of db type_id
  if 0 < wall_damage then
    let d := dirDelta facing
    let t : Cell := (cell.1 + d.1, cell.2 + d.2)
    if 0 ≤ t.1 ∧ t.1 < GRID_W ∧ 0 ≤ t.2 ∧ t.2 < GRID_H then
      if w.grid t.2 t.1 = WALL then
        if allowHit wcat w t type_id then
          let wt_info := wtGet wcat (w.wall_type_id t.2 t.1)
          let wt_stats := match wt_info with
            | some i => i.stats
            | none => ({} : WallStats)
          let max_loc := hp_max_for_type wcat (w.wall_type_id t.2 t.1)
          let hp0 := w.wall_hp t.2 t.1
          let hp1 := if hp0 ≤ 0 then max_loc else hp0
          let hp2 := max 0 (hp1 - wall_damage)
          let broke := hp2 ≤ 0
          let w1 := { w with
            grid := fun y x =>
              if y = t.2 ∧ x = t.1 ∧ broke then EMPTY else w.grid y x,
            wall_hp := fun y x =>
              if y = t.2 ∧ x = t.1 then (if broke then 0 else hp2)
              else w.wall_hp y x }
          (toolReturnDamage wt_stats it act inst_id inst w1, true)
        else (w, false)
      else (w, false)
    else (w, false)
  else (w, false)

theorem toolReturnDamage_grid (wt_stats : WallStats) (it : Option ItemType)
    (act : String) (inst_id : Option String) (inst : Option ItemInst)
    (w : MineWorld) :
    (toolReturnDamage wt_stats it act inst_id inst w).grid = w.grid ∧
    (toolReturnDamage wt_stats it act inst_id inst w).wall_hp = w.wall_hp ∧
    (toolReturnDamage wt_stats it act inst_id inst w).world_entities =
      w.world_entities := by
  unfold toolReturnDamage
  match inst_id, inst with
  | some iid, some i0 =>
    refine ⟨?_, ?_, ?_⟩
    all_goals simp only
    all_goals repeat' split
    all_goals rfl
  | some _, none => exact ⟨rfl, rfl, rfl⟩
  | none, _ => exact ⟨rfl, rfl, rfl⟩

/-- Helper: a hand action never turns any tile into a wall; an EMPTY tile
stays EMPTY (the only grid write in the block sets a broken wall tile to
EMPTY, and mining requires the target to be WALL). -/
theorem processHandAction_keeps_empty (wcat : WallCatalog) (db : ItemCatalog)
    (w : MineWorld) (act : String) (cell : Cell) (facing : String)
    (x y : ℤ) (h : w.grid y x = EMPTY) :
    (processHandAction wcat db w act cell facing).1.grid y x = EMPTY := by
  unfold processHandAction
  simp only
  repeat' split
  all_goals try exact h
  all_goals rw [(toolReturnDamage_grid _ _ _ _ _ _).1]
  all_goals simp only
  all_goals split
  all_goals first
  | rfl
  | exact h

/-- C1: a wall-mining hit with positive wall-damage D against an in-bounds
WALL tile that the tool is allowed to damage (and whose hit points are
positive, the invariant for WALL tiles) decrements the tile's hp by D
clamped at 0; hp reaching 0 turns the tile to EMPTY with hp 0, hp staying
positive keeps it WALL; and an EMPTY tile is never turned back to WALL by
any further hand action. -/
theorem C1_wall_mining_damage (wcat : WallCatalog) (db : ItemCatalog)
    (w : MineWorld) (act : String) (cell : Cell) (facing : String)
    (iid : String) (inst : ItemInst) (D : ℤ) (t : Cell)
    (heq : w.equipment (act ++ "_hand") = some iid)
    (hit : w.items iid = some inst)
    (hD : wall_damage_of db inst.type = D)
    (hDpos : 0 < D)
    (ht : t = (cell.1 + (dirDelta facing).1, cell.2 + (dirDelta facing).2))
    (hb : 0 ≤ t.1 ∧ t.1 < GRID_W ∧ 0 ≤ t.2 ∧ t.2 < GRID_H)
    (hwall : w.grid t.2 t.1 = WALL)
    (hallow : allowHit wcat w t inst.type = true)
    (hhp : 0 < w.wall_hp t.2 t.1) :
    ((processHandAction wcat db w act cell facing).2 = true) ∧
    ((processHandAction wcat db w act cell facing).1.wall_hp t.2 t.1 =
      max 0 (w.wall_hp t.2 t.1 - D)) ∧
    (w.wall_hp t.2 t.1 ≤ D →
      (processHandAction wcat db w act cell facing).1.grid t.2 t.1 = EMPTY ∧
      (processHandAction wcat db w act cell facing).1.wall_hp t.2 t.1 = 0) ∧
    (D < w.wall_hp t.2 t.1 →
      (processHandAction wcat db w act cell facing).1.grid t.2 t.1 = WALL ∧
      (processHandAction wcat db w act cell facing).1.wall_hp t.2 t.1 =
        w.wall_hp t.2 t.1 - D) ∧
    (∀ (w₂ : MineWorld) (act₂ : String) (cell₂ : Cell) (facing₂ : String)
      (x y : ℤ), w₂.grid y x = EMPTY →
      (processHandAction wcat db w₂ act₂ cell₂ facing₂).1.grid y x = EMPTY) := by
  subst ht
  dsimp only at hb hwall hallow hhp ⊢
  set tx := cell.1 + (dirDelta facing).1 with htx
  set ty := cell.2 + (dirDelta facing).2 with hty
  have hout : processHandAction wcat db w act cell facing =
      (toolReturnDamage
        (match wtGet wcat (w.wall_type_id ty tx) with
          | some i => i.stats
          | none => ({} : WallStats))
        (dbGet db inst.type) act (some iid) (some inst)
        { w with
          grid := fun y x =>
            if y = ty ∧ x = tx ∧ max 0 (w.wall_hp ty tx - D) ≤ 0
            then EMPTY else w.grid y x,
          wall_hp := fun y x =>
            if y = ty ∧ x = tx
            then (if max 0 (w.wall_hp ty tx - D) ≤ 0 then 0
              else max 0 (w.wall_hp ty tx - D))
            else w.wall_hp y x }, true) := by
    unfold processHandAction
    simp only [heq, hit, hD]
    rw [if_pos hDpos]
    simp only [← htx, ← hty]
    rw [if_pos hb, if_pos hwall, if_pos hallow]
    simp only [if_neg (not_le.2 hhp)]
  have hgrid := toolReturnDamage_grid
    (match wtGet wcat (w.wall_type_id ty tx) with
      | some i => i.stats
      | none => ({} : WallStats))
    (dbGet db inst.type) act (some iid) (some inst)
    { w with
      grid := fun y x =>
        if y = ty ∧ x = tx ∧ max 0 (w.wall_hp ty tx - D) ≤ 0
        then EMPTY else w.grid y x,
      wall_hp := fun y x =>
        if y = ty ∧ x = tx
        then (if max 0 (w.wall_hp ty tx - D) ≤ 0 then 0
          else max 0 (w.wall_hp ty tx - D))
        else w.wall_hp y x }
  refine ⟨by rw [hout], ?_, ?_, ?_, ?_⟩
  · rw [hout]
    simp only [hgrid.2.1]
    simp only [and_self, if_true, true_and, eq_self_iff_true]
    split
    · next hbr => omega
    · rfl
  · intro hle
    constructor
    · rw [hout]
      simp only [hgrid.1]
      simp only [eq_self_iff_true, true_and]
      rw [if_pos (show max 0 (w.wall_hp ty tx - D) ≤ 0 by omega)]
    · rw [hout]
      simp only [hgrid.2.1]
      simp only [and_self, if_true, true_and, eq_self_iff_true]
      omega
  · intro hlt
    constructor
    · rw [hout]
      simp only [hgrid.1]
      simp only [eq_self_iff_true, true_and]
      rw [if_neg (show ¬ max 0 (w.wall_hp ty tx - D) ≤ 0 by omega)]
      exact hwall
    · rw [hout]
      simp only [hgrid.2.1]
      simp only [and_self, if_true, true_and, eq_self_iff_true]
      omega
  · intro w₂ act₂ cell₂ facing₂ x y h
    exact processHandAction_keeps_empty wcat db w₂ act₂ cell₂ facing₂ x y h

/-- Witness for C1: the spec scenario.  A pickaxe with wall_damage 2
against a stone wall with hp 3: the first hit leaves hp 1 and the tile
WALL, the second hit leaves hp 0 and the tile EMPTY. -/
theorem C1_wall_mining_damage_witness :
    let wcat : WallCatalog := [("stone1", { stats := { durability := some 3 } })]
    let db : ItemCatalog :=
      [("pickaxe", { stats := { wall_damage := some 2, durability := some 10 } })]
    let w1 : MineWorld :=
      { grid := fun y x => if y = 5 ∧ x = 6 then WALL else EMPTY,
        wall_hp := fun y x => if y = 5 ∧ x = 6 then 3 else 0,
        wall_type_id := fun _ _ => "stone1",
        equipment := fun s => if s = "right_hand" then some "p1" else none,
        items := fun k =>
          if k = "p1" then some { type := "pickaxe", durability := some 10 }
          else none,
        inventory := ["p1"],
        world_entities := [] }
    let w2 := (processHandAction wcat db w1 "right" (6, 6) "up").1
    w2.wall_hp 5 6 = 1 ∧ w2.grid 5 6 = WALL ∧
    (processHandAction wcat db w2 "right" (6, 6) "up").1.wall_hp 5 6 = 0 ∧
    (processHandAction wcat db w2 "right" (6, 6) "up").1.grid 5 6 = EMPTY := by
  intro wcat db w1 w2
  have h1 := C1_wall_mining_damage wcat db w1 "right" (6, 6) "up" "p1"
    { type := "pickaxe", durability := some 10 } 2 (6, 5)
    rfl rfl (by decide) (by decide) (by decide) (by decide) (by decide)
    (by decide) (by decide)
  have h2 := C1_wall_mining_damage wcat db w2 "right" (6, 6) "up" "p1"
    { type := "pickaxe", durability := some 10 } 2 (6, 5)
    (by decide) (by decide) (by decide) (by decide) (by decide) (by decide)
    (by decide) (by decide) (by decide)
  refine ⟨?_, ?_, ?_, ?_⟩
  · rw [show w2.wall_hp 5 6 = (processHandAction wcat db w1 "right" (6, 6) "up").1.wall_hp 5 6 from rfl, h1.2.1]
    decide
  · exact (h1.2.2.2.1 (by decide)).1
  · rw [h2.2.1]
    decide
  · exact (h2.2.2.1 (by decide)).1

/-- Helper: when the hand action resolves to an allowed mining hit, the
result is the tool-return-damage block applied to a world that differs
from the input only in `grid` and `wall_hp`. -/
theorem processHandAction_mined (wcat : WallCatalog) (db : ItemCatalog)
    (w : MineWorld) (act : String) (cell : Cell) (facing : String)
    (iid : String) (inst : ItemInst) (t : Cell)
    (heq : w.equipment (act ++ "_hand") = some iid)
    (hit : w.items iid = some inst)
    (hDpos : 0 < wall_damage_of db inst.type)
    (ht : t = (cell.1 + (dirDelta facing).1, cell.2 + (dirDelta facing).2))
    (hb : 0 ≤ t.1 ∧ t.1 < GRID_W ∧ 0 ≤ t.2 ∧ t.2 < GRID_H)
    (hwall : w.grid t.2 t.1 = WALL)
    (hallow : allowHit wcat w t inst.type = true) :
    ∃ g : Grid, ∃ hp : ℤ → ℤ → ℤ,
      processHandAction wcat db w act cell facing =
        (toolReturnDamage
          (match wtGet wcat (w.wall_type_id t.2 t.1) with
            | some i => i.stats
            | none => ({} : WallStats))
          (dbGet db inst.type) act (some iid) (some inst)
          { w with grid := g, wall_hp := hp }, true) := by
  subst ht
  dsimp only at hb hwall hallow ⊢
  set tx := cell.1 + (dirDelta facing).1 with htx
  set ty := cell.2 + (dirDelta facing).2 with hty
  refine ⟨fun y x =>
      if y = ty ∧ x = tx ∧
        max 0 ((if w.wall_hp ty tx ≤ 0
          then hp_max_for_type wcat (w.wall_type_id ty tx)
          else w.wall_hp ty tx) - wall_damage_of db inst.type) ≤ 0
      then EMPTY else w.grid y x,
    fun y x =>
      if y = ty ∧ x = tx
      then (if max 0 ((if w.wall_hp ty tx ≤ 0
          then hp_max_for_type wcat (w.wall_type_id ty tx)
          else w.wall_hp ty tx) - wall_damage_of db inst.type) ≤ 0
        then 0
        else max 0 ((if w.wall_hp ty tx ≤ 0
          then hp_max_for_type wcat (w.wall_type_id ty tx)
          else w.wall_hp ty tx) - wall_damage_of db inst.type))
      else w.wall_hp y x, ?_⟩
  unfold processHandAction
  simp only [heq, hit]
  rw [if_pos hDpos]
  simp only [← htx, ← hty]
  rw [if_pos hb, if_pos hwall, if_pos hallow]

/-- C8 (amended): when the wall's return damage drives the equipped tool's
durability to 0, the tool is unequipped from the acting hand and its
instance record is deleted outright: it is removed from the player's
inventory and items map, and no world entity is created (the tool is
destroyed, neither stowed nor dropped). -/
theorem C8_broken_tool_destroyed (wcat : WallCatalog) (db : ItemCatalog)
    (w : MineWorld) (act : String) (cell : Cell) (facing : String)
    (iid : String) (inst : ItemInst) (t : Cell) (wtinfo : WallType)
    (td cur : ℤ)
    (heq : w.equipment (act ++ "_hand") = some iid)
    (hit : w.items iid = some inst)
    (hDpos : 0 < wall_damage_of db inst.type)
    (ht : t = (cell.1 + (dirDelta facing).1, cell.2 + (dirDelta facing).2))
    (hb : 0 ≤ t.1 ∧ t.1 < GRID_W ∧ 0 ≤ t.2 ∧ t.2 < GRID_H)
    (hwall : w.grid t.2 t.1 = WALL)
    (hallow : allowHit wcat w t inst.type = true)
    (hwt : wtGet wcat (w.wall_type_id t.2 t.1) = some wtinfo)
    (htd : (match wtinfo.stats.damage with
      | some v => some v
      | none => wtinfo.stats.damaged).getD 0 = td)
    (htdpos : 0 < td)
    (hdur : inst.durability = some cur)
    (hcur : cur ≤ td) :
    ((processHandAction wcat db w act cell facing).1.equipment
      (act ++ "_hand") = none) ∧
    (w.inventory.Nodup →
      iid ∉ (processHandAction wcat db w act cell facing).1.inventory) ∧
    ((processHandAction wcat db w act cell facing).1.items iid = none) ∧
    ((processHandAction wcat db w act cell facing).1.world_entities =
      w.world_entities) := by
  obtain ⟨g, hp, hout⟩ := processHandAction_mined wcat db w act
    cell facing iid inst t heq hit hDpos ht hb hwall hallow
  rw [hout]
  have hS : (match wtGet wcat (w.wall_type_id t.2 t.1) with
      | some i => i.stats
      | none => ({} : WallStats)) = wtinfo.stats := by rw [hwt]
  rw [hS]
  have htool : toolReturnDamage wtinfo.stats
      (dbGet db inst.type) act (some iid) (some inst)
      { w with grid := g, wall_hp := hp } =
      { w with
        grid := g, wall_hp := hp,
        equipment := fun s =>
          if s = act ++ "_hand" ∧ w.equipment (act ++ "_hand") = some iid
          then none else w.equipment s,
        items := fun k =>
          if k = iid then none
          else if k = iid then
            some { inst with durability := some (max 0 (cur - td)) }
          else w.items k,
        inventory := w.inventory.erase iid } := by
    unfold toolReturnDamage
    simp only [hdur, if_neg (Option.some_ne_none cur), htd, if_pos htdpos,
      Option.getD_some, if_pos (show max 0 (cur - td) ≤ 0 by omega)]
  rw [htool]
  refine ⟨?_, ?_, ?_, ?_⟩
  · simp [heq]
  · intro hnd
    exact hnd.not_mem_erase
  · simp
  · rfl

/-- Counterexample to C8 as stated: a concrete mining hit that breaks the
tool (durability 1, return damage 5) with ample backpack capacity; the
tool is unequipped, but it is neither stowed in the inventory nor dropped
as a world entity: the instance simply disappears. -/
theorem C8_counterexample :
    let wcat : WallCatalog :=
      [("stone1", { stats := { durability := some 3, damage := some 5 } })]
    let db : ItemCatalog :=
      [("pickaxe", { stats := { wall_damage := some 2, durability := some 10 } }),
       ("bag", { stats := { capacity_weight := some 100 } })]
    let w : MineWorld :=
      { grid := fun y x => if y = 5 ∧ x = 6 then WALL else EMPTY,
        wall_hp := fun y x => if y = 5 ∧ x = 6 then 3 else 0,
        wall_type_id := fun _ _ => "stone1",
        equipment := fun s =>
          if s = "right_hand" then some "p1"
          else if s = "backpack" then some "b1" else none,
        items := fun k =>
          if k = "p1" then some { type := "pickaxe", durability := some 1 }
          else if k = "b1" then some { type := "bag" } else none,
        inventory := ["p1"],
        world_entities := [] }
    let w' := (processHandAction wcat db w "right" (6, 6) "up").1
    w'.equipment "right_hand" = none ∧
    ¬(("p1" ∈ w'.inventory) ∨ w'.world_entities ≠ w.world_entities) := by
  intro wcat db w w'
  refine ⟨by decide, ?_⟩
  intro h
  rcases h with h | h
  · revert h
    decide
  · exact h (by decide)

/-- Witness for `C8_broken_tool_destroyed` at the same concrete input as
the counterexample. -/
theorem C8_broken_tool_destroyed_witness :
    let wcat : WallCatalog :=
      [("stone1", { stats := { durability := some 3, damage := some 5 } })]
    let db : ItemCatalog :=
      [("pickaxe", { stats := { wall_damage := some 2, durability := some 10 } }),
       ("bag", { stats := { capacity_weight := some 100 } })]
    let w : MineWorld :=
      { grid := fun y x => if y = 5 ∧ x = 6 then WALL else EMPTY,
        wall_hp := fun y x => if y = 5 ∧ x = 6 then 3 else 0,
        wall_type_id := fun _ _ => "stone1",
        equipment := fun s =>
          if s = "right_hand" then some "p1"
          else if s = "backpack" then some "b1" else none,
        items := fun k =>
          if k = "p1" then some { type := "pickaxe", durability := some 1 }
          else if k = "b1" then some { type := "bag" } else none,
        inventory := ["p1"],
        world_entities := [] }
    (processHandAction wcat db w "right" (6, 6) "up").1.equipment
      "right_hand" = none ∧
    "p1" ∉ (processHandAction wcat db w "right" (6, 6) "up").1.inventory ∧
    (processHandAction wcat db w "right" (6, 6) "up").1.items "p1" = none := by
  intro wcat db w
  have h := C8_broken_tool_destroyed wcat db w "right" (6, 6) "up" "p1"
    { type := "pickaxe", durability := some 1 } (6, 5)
    { stats := { durability := some 3, damage := some 5 } } 5 1
    rfl rfl (by decide) (by decide) (by decide) (by decide) (by decide)
    (by decide) (by decide) (by decide) (by decide) (by decide)
  exact ⟨h.1, h.2.1 (by decide), h.2.2.1⟩

/-! ## Billboard sprite depth sorting (game.py line 3231) -/

/-- A billboard sprite entry of the per-player frame payload.  The source
rectangle fields are opaque here; `depth` is the Euclidean distance from
the viewing player used as the sort key. -/
structure Sprite where
  img : String
  x : ℤ
  y : ℤ
  w : ℤ
  h : ℤ
  depth : ℚ
deriving DecidableEq

/-- `sorted(sprites, key=lambda s: -s['depth'])` (game.py line 3231):
Python's stable sort ascending on the negated depth, i.e. a stable merge
sort with `a` before `b` when `b.depth ≤ a.depth`. -/
def sortSprites (l : List Sprite) : List Sprite :=
  l.mergeSort (fun a b => decide (b.depth ≤ a.depth))

/-- The claim's reading of "sorted strictly by descending distance": every
consecutive pair strictly decreases in depth. -/
def strictDescDepth : List Sprite → Prop :=
  List.Chain' (fun a b => b.depth < a.depth)

def spriteA : Sprite :=
  { img := "a", x := 0, y := 0, w := 1, h := 1, depth := 5 }

def spriteB : Sprite :=
  { img := "b", x := 0, y := 0, w := 1, h := 1, depth := 5 }

/-- Counterexample to C9 as stated: two sprites at equal depth 5 (e.g. two
entities equidistant from the player).  The emitted order is only
non-increasing; no strict descent is possible between the two equal
depths. -/
theorem C9_counterexample :
    ¬ strictDescDepth (sortSprites [spriteA, spriteB]) := by
  intro h
  have hperm : (sortSprites [spriteA, spriteB]).Perm [spriteA, spriteB] := by
    unfold sortSprites
    exact List.mergeSort_perm _ _
  have hmem : ∀ x ∈ sortSprites [spriteA, spriteB], x.depth = 5 := by
    intro x hx
    have hx' := hperm.mem_iff.mp hx
    rcases List.mem_cons.mp hx' with h1 | h1
    · rw [h1]; rfl
    · rcases List.mem_cons.mp h1 with h2 | h2
      · rw [h2]; rfl
      · exact absurd h2 (List.not_mem_nil x)
  rcases hl : sortSprites [spriteA, spriteB] with _ | ⟨u, _ | ⟨v, rest⟩⟩
  · rw [hl] at hperm
    exact absurd hperm.length_eq (by simp)
  · rw [hl] at hperm
    exact absurd hperm.length_eq (by simp)
  · rw [hl] at h
    have hlt : v.depth < u.depth := (List.chain'_cons.mp h).1
    have hu : u.depth = 5 := hmem u (by rw [hl]; exact List.mem_cons_self u _)
    have hv : v.depth = 5 := hmem v
      (by rw [hl]; exact List.mem_cons_of_mem u (List.mem_cons_self v rest))
    rw [hu, hv] at hlt
    exact lt_irrefl _ hlt

/-- C9 (amended): the emitted sprite list is a permutation of the input
sorted by non-increasing depth (farthest first, ties adjacent): for every
pair of sprites in emitted order, and in particular every consecutive
pair, the earlier sprite's depth is greater than or equal to the later
sprite's depth; and the sort is stable: for each depth value, the
sprites at that depth appear in their original input order. -/
theorem C9_sprites_sorted_descending (l : List Sprite) :
    List.Pairwise (fun a b => b.depth ≤ a.depth) (sortSprites l) ∧
    List.Chain' (fun a b => b.depth ≤ a.depth) (sortSprites l) ∧
    (sortSprites l).Perm l ∧
    ∀ d : ℚ, (sortSprites l).filter (fun s => decide (s.depth = d)) =
      l.filter (fun s => decide (s.depth = d)) := by
  have htrans : ∀ a b c : Sprite, (decide (b.depth ≤ a.depth)) = true →
      (decide (c.depth ≤ b.depth)) = true →
      (decide (c.depth ≤ a.depth)) = true := by
    intro a b c hab hbc
    simp only [decide_eq_true_eq] at *
    exact le_trans hbc hab
  have htotal : ∀ a b : Sprite,
      ((decide (b.depth ≤ a.depth)) || (decide (a.depth ≤ b.depth))) = true := by
    intro a b
    simp [le_total]
  have hp := List.sorted_mergeSort htrans htotal l
  have hpw : List.Pairwise (fun a b : Sprite => b.depth ≤ a.depth)
      (sortSprites l) := by
    unfold sortSprites
    exact hp.imp (fun h => by simpa using h)
  refine ⟨hpw, hpw.chain', ?_, ?_⟩
  · unfold sortSprites
    exact List.mergeSort_perm _ _
  · intro d
    have hsub : List.Sublist (l.filter (fun s => decide (s.depth = d)))
        (sortSprites l) := by
      unfold sortSprites
      refine List.sublist_mergeSort htrans htotal ?_ (List.filter_sublist l)
      refine List.pairwise_of_forall_mem_list ?_
      intro a ha b hb
      have ha' : a.depth = d := by simpa using List.of_mem_filter ha
      have hb' : b.depth = d := by simpa using List.of_mem_filter hb
      simp [ha', hb']
    have heq : (l.filter (fun s => decide (s.depth = d))).filter
        (fun s => decide (s.depth = d)) =
        l.filter (fun s => decide (s.depth = d)) :=
      by
        rw [List.filter_eq_self]
        intro x hx
        have h3 := List.of_mem_filter hx
        simpa using h3
    have hsub2 : List.Sublist (l.filter (fun s => decide (s.depth = d)))
        ((sortSprites l).filter (fun s => decide (s.depth = d))) := by
      have h2 := hsub.filter (fun s => decide (s.depth = d))
      rw [heq] at h2
      exact h2
    have hlen : ((sortSprites l).filter (fun s => decide (s.depth = d))).length
        = (l.filter (fun s => decide (s.depth = d))).length := by
      have hperm : (sortSprites l).Perm l := List.mergeSort_perm l _
      exact (hperm.filter _).length_eq
    exact (hsub2.eq_of_length hlen.symm).symm

/-! ## Player translation commands (game.py run_game, lines 2461-2496) -/

/-- The world state read by the player translation block: the grid, the
player occupancy map (`occupied`, cell to session id), the solid-entity
cell set, and the snapshot of enemy-occupied cells
(`e_occ_for_players`). -/
structure MoveWorld where
  grid : Grid
  occupied : Cell → Option String
  solid : Cell → Bool
  e_occ : Cell → Bool

/-- The per-player movement state: integer cell plus derived pixel
position. -/
structure PlayerSt where
  cell : Cell
  pos : ℤ × ℤ
deriving DecidableEq

/-- The translation step (game.py lines 2483-2495): with a nonzero tile
delta, the destination must be in-bounds, not WALL, unoccupied by players,
not a solid cell, and not enemy-occupied; on acceptance the old cell is
popped from `occupied` and the new cell claimed in the same update.
Returns the updated world, the updated player state, and the `moved`
flag. -/
def resolveTranslation (w : MoveWorld) (sid : String) (st : PlayerSt)
    (d : ℤ × ℤ) : MoveWorld × PlayerSt × Bool :=
  if d.1 ≠ 0 ∨ d.2 ≠ 0 then
    let n : Cell := (st.cell.1 + d.1, st.cell.2 + d.2)
    if 0 ≤ n.1 ∧ n.1 < GRID_W ∧ 0 ≤ n.2 ∧ n.2 < GRID_H then
      if w.grid n.2 n.1 ≠ WALL ∧ w.occupied n = none ∧
          w.solid n = false ∧ w.e_occ n = false then
        ({ w with occupied := fun c =>
            if c = n then some sid
            else if c = st.cell then none
            else w.occupied c },
         { cell := n, pos := cell_to_px n }, true)
      else (w, st, false)
    else (w, st, false)
  else (w, st, false)

/-- C4: with the nonzero delta a translation command always produces, the
move is accepted iff the destination is in-bounds, not WALL, not in the
player occupancy map, not solid, and not enemy-occupied; on acceptance the
old cell is freed and the new cell claimed in the same occupancy update
(all other cells untouched) and the cell/pixel position updated; on
rejection the world and the player state are unchanged. -/
theorem C4_player_move (w : MoveWorld) (sid : String) (st : PlayerSt)
    (d : ℤ × ℤ) (hd : ¬(d.1 = 0 ∧ d.2 = 0)) :
    ((resolveTranslation w sid st d).2.2 = true ↔
      ((0 ≤ st.cell.1 + d.1 ∧ st.cell.1 + d.1 < GRID_W ∧
        0 ≤ st.cell.2 + d.2 ∧ st.cell.2 + d.2 < GRID_H) ∧
       w.grid (st.cell.2 + d.2) (st.cell.1 + d.1) ≠ WALL ∧
       w.occupied (st.cell.1 + d.1, st.cell.2 + d.2) = none ∧
       w.solid (st.cell.1 + d.1, st.cell.2 + d.2) = false ∧
       w.e_occ (st.cell.1 + d.1, st.cell.2 + d.2) = false)) ∧
    ((resolveTranslation w sid st d).2.2 = true →
      (resolveTranslation w sid st d).1.occupied st.cell = none ∧
      (resolveTranslation w sid st d).1.occupied
        (st.cell.1 + d.1, st.cell.2 + d.2) = some sid ∧
      (resolveTranslation w sid st d).2.1.cell =
        (st.cell.1 + d.1, st.cell.2 + d.2) ∧
      (resolveTranslation w sid st d).2.1.pos =
        cell_to_px (st.cell.1 + d.1, st.cell.2 + d.2) ∧
      (∀ c : Cell, c ≠ (st.cell.1 + d.1, st.cell.2 + d.2) → c ≠ st.cell →
        (resolveTranslation w sid st d).1.occupied c = w.occupied c)) ∧
    ((resolveTranslation w sid st d).2.2 = false →
      (resolveTranslation w sid st d).1 = w ∧
      (resolveTranslation w sid st d).2.1 = st) := by
  have hd' : d.1 ≠ 0 ∨ d.2 ≠ 0 := by tauto
  have hne : st.cell ≠ (st.cell.1 + d.1, st.cell.2 + d.2) := by
    intro hcon
    have h1 : st.cell.1 = st.cell.1 + d.1 := congrArg Prod.fst hcon
    have h2 : st.cell.2 = st.cell.2 + d.2 := congrArg Prod.snd hcon
    exact hd ⟨by omega, by omega⟩
  by_cases hbnd : 0 ≤ st.cell.1 + d.1 ∧ st.cell.1 + d.1 < GRID_W ∧
      0 ≤ st.cell.2 + d.2 ∧ st.cell.2 + d.2 < GRID_H
  · by_cases hcond : w.grid (st.cell.2 + d.2) (st.cell.1 + d.1) ≠ WALL ∧
        w.occupied (st.cell.1 + d.1, st.cell.2 + d.2) = none ∧
        w.solid (st.cell.1 + d.1, st.cell.2 + d.2) = false ∧
        w.e_occ (st.cell.1 + d.1, st.cell.2 + d.2) = false
    · have hout : resolveTranslation w sid st d =
          ({ w with occupied := fun c =>
              if c = (st.cell.1 + d.1, st.cell.2 + d.2) then some sid
              else if c = st.cell then none
              else w.occupied c },
           { cell := (st.cell.1 + d.1, st.cell.2 + d.2),
             pos := cell_to_px (st.cell.1 + d.1, st.cell.2 + d.2) }, true) := by
        unfold resolveTranslation
        rw [if_pos hd']
        simp only
        rw [if_pos hbnd, if_pos hcond]
      rw [hout]
      refine ⟨⟨fun _ => ⟨hbnd, hcond⟩, fun _ => rfl⟩, fun _ => ?_,
        fun hfalse => absurd hfalse (by simp)⟩
      refine ⟨?_, ?_, rfl, rfl, ?_⟩
      · simp only
        rw [if_neg hne]
        simp
      · simp
      · intro c hcn hcs
        simp only
        rw [if_neg hcn, if_neg hcs]
    · have hout : resolveTranslation w sid st d = (w, st, false) := by
        unfold resolveTranslation
        rw [if_pos hd']
        simp only
        rw [if_pos hbnd, if_neg hcond]
      rw [hout]
      exact ⟨⟨fun htrue => absurd htrue (by simp), fun hcd => absurd hcd.2 hcond⟩,
        fun htrue => absurd htrue (by simp), fun _ => ⟨rfl, rfl⟩⟩
  · have hout : resolveTranslation w sid st d = (w, st, false) := by
      unfold resolveTranslation
      rw [if_pos hd']
      simp only
      rw [if_neg hbnd]
    rw [hout]
    exact ⟨⟨fun htrue => absurd htrue (by simp), fun hcd => absurd hcd.1 hbnd⟩,
      fun htrue => absurd htrue (by simp), fun _ => ⟨rfl, rfl⟩⟩

/-- Witness instantiating `C4_player_move` at a concrete accepted move:
empty 3-cell neighborhood, step right from (10, 10). -/
theorem C4_player_move_witness :
    let w : MoveWorld :=
      { grid := fun _ _ => EMPTY,
        occupied := fun c => if c = (10, 10) then some "s1" else none,
        solid := fun _ => false,
        e_occ := fun _ => false }
    let st : PlayerSt := { cell := (10, 10), pos := cell_to_px (10, 10) }
    (resolveTranslation w "s1" st (1, 0)).2.2 = true ∧
    (resolveTranslation w "s1" st (1, 0)).1.occupied (10, 10) = none ∧
    (resolveTranslation w "s1" st (1, 0)).1.occupied (11, 10) = some "s1" := by
  intro w st
  have h := C4_player_move w "s1" st (1, 0) (by decide)
  have hacc : (resolveTranslation w "s1" st (1, 0)).2.2 = true :=
    h.1.2 ⟨by decide, by decide, by decide, by decide, by decide⟩
  have h2 := h.2.1 hacc
  exact ⟨hacc, h2.1, h2.2.1⟩

/-! ## Fog-of-war (game.py run_game lines 2297-2344; ensure_player lines
2149-2167) -/

/-- The per-player slice the fog update touches: current cell and the
persistent seen mask (`st['seen']`, indexed `seen y x`). -/
structure FogPlayer where
  cell : Cell
  seen : ℤ → ℤ → Bool

/-- The reveal loop around a player's cell (game.py lines 2320-2330, same
loop as lines 2160-2167): every tile of the clamped bounding box whose
squared Euclidean distance from the cell is at most `r * r` is marked
seen; all other entries keep their value. -/
def revealSeen (cx cy r : ℤ) (seen : ℤ → ℤ → Bool) : ℤ → ℤ → Bool :=
  fun y x =>
    if max 0 (cy - r) ≤ y ∧ y ≤ min (GRID_H - 1) (cy + r) ∧
        max 0 (cx - r) ≤ x ∧ x ≤ min (GRID_W - 1) (cx + r) ∧
        (x - cx) * (x - cx) + (y - cy) * (y - cy) ≤ r * r
    then true else seen y x

/-- The per-tick visibility update (game.py lines 2305-2344): in "fog" or
"reveal" mode every connected player's mask is revealed around its current
cell and the combined mask is the union of the updated masks; otherwise
the combined mask is all-true.  Returns the updated players and the
combined mask (indexed `y x`). -/
def fogTick (mode : String) (r : ℤ) (ps : List FogPlayer) :
    List FogPlayer × (ℤ → ℤ → Bool) :=
  if mode = "fog" ∨ mode = "reveal" then
    let ps' := ps.map
      (fun p => { p with seen := revealSeen p.cell.1 p.cell.2 r p.seen })
    (ps', fun y x => ps'.any (fun p => p.seen y x))
  else (ps, fun _ _ => true)

/-- Helper: on in-bounds tiles the reveal update is exactly "previously
seen, or within Euclidean distance r of the player's cell" — the box
clamping never cuts the disk. -/
theorem revealSeen_spec (cx cy r : ℤ) (s : ℤ → ℤ → Bool) (x y : ℤ)
    (hr : 0 ≤ r) (hx0 : 0 ≤ x) (hx1 : x < GRID_W) (hy0 : 0 ≤ y)
    (hy1 : y < GRID_H) :
    (revealSeen cx cy r s y x = true ↔
      (s y x = true ∨
        (x - cx) * (x - cx) + (y - cy) * (y - cy) ≤ r * r)) := by
  have hGW : GRID_W = 256 := rfl
  have hGH : GRID_H = 128 := rfl
  unfold revealSeen
  split
  · next hc => exact ⟨fun _ => Or.inr hc.2.2.2.2, fun _ => rfl⟩
  · next hc =>
    constructor
    · exact fun h => Or.inl h
    · intro h
      rcases h with h | h
      · exact h
      · exfalso
        apply hc
        have h1 : (x - cx) * (x - cx) ≤ r * r := by
          nlinarith [mul_self_nonneg (y - cy)]
        have h2 : (y - cy) * (y - cy) ≤ r * r := by
          nlinarith [mul_self_nonneg (x - cx)]
        have hxl : cx - r ≤ x := by nlinarith [mul_self_nonneg (x - cx + r)]
        have hxu : x ≤ cx + r := by nlinarith [mul_self_nonneg (x - cx - r)]
        have hyl : cy - r ≤ y := by nlinarith [mul_self_nonneg (y - cy + r)]
        have hyu : y ≤ cy + r := by nlinarith [mul_self_nonneg (y - cy - r)]
        exact ⟨by omega, by omega, by omega, by omega, h⟩

/-- C5: in fog or reveal mode, one tick turns each connected player's seen
mask, on every in-bounds tile, into "previously seen OR within squared
Euclidean distance r*r of the player's current cell" (so marking is
circular and monotone: a true entry never becomes false), and the
combined mask is true exactly where some connected player's updated mask
is true (the logical OR of all masks). -/
theorem C5_fog_of_war (mode : String) (r : ℤ) (ps : List FogPlayer)
    (hmode : mode = "fog" ∨ mode = "reveal") (hr : 0 ≤ r) :
    List.Forall₂ (fun p p' : FogPlayer => p'.cell = p.cell ∧
      ∀ x y : ℤ, 0 ≤ x → x < GRID_W → 0 ≤ y → y < GRID_H →
        (p'.seen y x = true ↔ (p.seen y x = true ∨
          (x - p.cell.1) * (x - p.cell.1) +
            (y - p.cell.2) * (y - p.cell.2) ≤ r * r)))
      ps (fogTick mode r ps).1 ∧
    (∀ x y : ℤ, ((fogTick mode r ps).2 y x = true ↔
      ∃ p' ∈ (fogTick mode r ps).1, p'.seen y x = true)) := by
  have hout : fogTick mode r ps =
      (ps.map (fun p =>
          { p with seen := revealSeen p.cell.1 p.cell.2 r p.seen }),
       fun y x => (ps.map (fun p =>
          { p with seen := revealSeen p.cell.1 p.cell.2 r p.seen })).any
          (fun p => p.seen y x)) := by
    unfold fogTick
    rw [if_pos hmode]
  rw [hout]
  constructor
  · rw [List.forall₂_map_right_iff, List.forall₂_same]
    intro p hp
    refine ⟨rfl, ?_⟩
    intro x y hx0 hx1 hy0 hy1
    exact revealSeen_spec p.cell.1 p.cell.2 r p.seen x y hr hx0 hx1 hy0 hy1
  · intro x y
    simp [List.any_eq_true]

/-- Witness for `C5_fog_of_war`: the spec scenario, a single player at
(10, 10) in "fog" mode with reveal radius 6 and a fresh all-false mask:
after one tick the combined mask is true at (14, 10) (distance 4) and
false at (17, 10) (distance 7). -/
theorem C5_fog_of_war_witness :
    let p0 : FogPlayer := { cell := (10, 10), seen := fun _ _ => false }
    (fogTick "fog" 6 [p0]).2 10 14 = true ∧
    (fogTick "fog" 6 [p0]).2 10 17 = false := by
  intro p0
  have h := C5_fog_of_war "fog" 6 [p0] (Or.inl rfl) (by norm_num)
  have hfog1 : (fogTick "fog" 6 [p0]).1 =
      [{ p0 with seen := revealSeen 10 10 6 p0.seen }] := rfl
  constructor
  · refine (h.2 14 10).2 ⟨{ p0 with seen := revealSeen 10 10 6 p0.seen },
      ?_, by decide⟩
    rw [hfog1]
    exact List.mem_singleton_self _
  · cases hcv : (fogTick "fog" 6 [p0]).2 10 17 with
    | false => rfl
    | true =>
      obtain ⟨p', hp', hseen⟩ := (h.2 17 10).1 hcv
      rw [hfog1] at hp'
      rw [List.mem_singleton.mp hp'] at hseen
      exact absurd hseen (by decide)

/-! ## random_empty_cell (game.py lines 1753-1767) -/

/-- The eligibility test at lines 1759 and 1764: EMPTY tile, not in the
player occupancy map, not a solid cell. -/
def freeCell (g : Grid) (occ : Cell → Bool) (solid : Cell → Bool)
    (c : Cell) : Bool :=
  decide (g c.2 c.1 = EMPTY) && !(occ c) && !(solid c)

/-- The bounded random-attempt loop (lines 1756-1760): up to `n` draws of
an interior cell, stopping at the first eligible one; returns the found
cell (if any) and the advanced random state. -/
def attemptsLoop (R : RngImpl) (g : Grid) (occ : Cell → Bool)
    (solid : Cell → Bool) : ℕ → R.State → Option Cell × R.State
  | 0, s => (none, s)
  | n + 1, s =>
    let p1 := R.randrange s 1 (GRID_W - 1)
    let p2 := R.randrange p1.2 1 (GRID_H - 1)
    if freeCell g occ solid (p1.1, p2.1) then (some (p1.1, p2.1), p2.2)
    else attemptsLoop R g occ solid n p2.2

/-- The interior cells in the order of the fallback linear scan (lines
1762-1765): `cy` outer from 1 to GRID_H-2, `cx` inner from 1 to
GRID_W-2. -/
def scanCells : List Cell :=
  (List.range 126).flatMap
    (fun j => (List.range 254).map (fun i => ((i : ℤ) + 1, (j : ℤ) + 1)))

/-- `random_empty_cell` (game.py lines 1753-1767): 500 random attempts,
then the linear scan, then the `(1, 1)` fallback.  The advanced random
state is returned alongside the cell. -/
def random_empty_cell (R : RngImpl) (g : Grid) (occ : Cell → Bool)
    (solid : Cell → Bool) (s : R.State) : Cell × R.State :=
  match attemptsLoop R g occ solid 500 s with
  | (some c, s') => (c, s')
  | (none, s') =>
    match scanCells.find? (fun c => freeCell g occ solid c) with
    | some c => (c, s')
    | none => ((1, 1), s')

theorem attemptsLoop_some (R : RngImpl) (g : Grid) (occ : Cell → Bool)
    (solid : Cell → Bool) :
    ∀ (n : ℕ) (s : R.State) (c : Cell) (s' : R.State),
      attemptsLoop R g occ solid n s = (some c, s') →
      freeCell g occ solid c = true ∧
      1 ≤ c.1 ∧ c.1 < GRID_W - 1 ∧ 1 ≤ c.2 ∧ c.2 < GRID_H - 1 := by
  intro n
  induction n with
  | zero =>
    intro s c s' h
    simp [attemptsLoop] at h
  | succ n ih =>
    intro s c s' h
    unfold attemptsLoop at h
    by_cases hfree : freeCell g occ solid
        ((R.randrange s 1 (GRID_W - 1)).1,
         (R.randrange (R.randrange s 1 (GRID_W - 1)).2 1 (GRID_H - 1)).1) = true
    · rw [if_pos hfree] at h
      have hc : c = ((R.randrange s 1 (GRID_W - 1)).1,
          (R.randrange (R.randrange s 1 (GRID_W - 1)).2 1 (GRID_H - 1)).1) := by
        have := congrArg Prod.fst h
        simp at this
        exact this.symm
      subst hc
      have hx := R.randrange_mem s 1 (GRID_W - 1) (by decide)
      have hy := R.randrange_mem (R.randrange s 1 (GRID_W - 1)).2 1
        (GRID_H - 1) (by decide)
      exact ⟨hfree, hx.1, hx.2, hy.1, hy.2⟩
    · rw [if_neg hfree] at h
      exact ih _ c s' h

theorem scanCells_mem (c : Cell) :
    c ∈ scanCells ↔
      (1 ≤ c.1 ∧ c.1 ≤ GRID_W - 2 ∧ 1 ≤ c.2 ∧ c.2 ≤ GRID_H - 2) := by
  have hGW : GRID_W = 256 := rfl
  have hGH : GRID_H = 128 := rfl
  constructor
  · intro h
    simp [scanCells] at h
    obtain ⟨j, hj, i, ⟨i0, hi0, rfl⟩, hc⟩ := h
    have h1 : c.1 = (i0 : ℤ) + 1 := by rw [← hc]
    have h2 : c.2 = (j : ℤ) + 1 := by rw [← hc]
    omega
  · intro h
    simp [scanCells]
    refine ⟨(c.2 - 1).toNat, by omega, (c.1 - 1 : ℤ),
      ⟨(c.1 - 1).toNat, by omega, by omega⟩, ?_⟩
    have h1 : c.1 - 1 + 1 = c.1 := by omega
    have h2 : ((c.2 - 1).toNat : ℤ) + 1 = c.2 := by omega
    rw [h1, h2]

/-- C10: `random_empty_cell` always terminates with an interior cell:
1 ≤ cx ≤ GRID_W-2 and 1 ≤ cy ≤ GRID_H-2.  If some interior tile is
eligible (EMPTY, unoccupied, non-solid) the returned cell is eligible;
if no interior tile is eligible the function returns (1, 1) unchecked,
which may be a wall, occupied, or solid. -/
theorem C10_random_empty_cell (R : RngImpl) (g : Grid) (occ : Cell → Bool)
    (solid : Cell → Bool) (s : R.State) :
    (1 ≤ (random_empty_cell R g occ solid s).1.1 ∧
      (random_empty_cell R g occ solid s).1.1 ≤ GRID_W - 2 ∧
      1 ≤ (random_empty_cell R g occ solid s).1.2 ∧
      (random_empty_cell R g occ solid s).1.2 ≤ GRID_H - 2) ∧
    (∀ c : Cell,
      1 ≤ c.1 → c.1 ≤ GRID_W - 2 → 1 ≤ c.2 → c.2 ≤ GRID_H - 2 →
      freeCell g occ solid c = true →
      freeCell g occ solid (random_empty_cell R g occ solid s).1 = true) ∧
    ((∀ c : Cell,
        1 ≤ c.1 → c.1 ≤ GRID_W - 2 → 1 ≤ c.2 → c.2 ≤ GRID_H - 2 →
        freeCell g occ solid c = false) →
      (random_empty_cell R g occ solid s).1 = (1, 1)) := by
  have hGW : GRID_W = 256 := rfl
  have hGH : GRID_H = 128 := rfl
  unfold random_empty_cell
  rcases hA : attemptsLoop R g occ solid 500 s with ⟨oc, s'⟩
  cases oc with
  | some c =>
    have hsp := attemptsLoop_some R g occ solid 500 s c s' hA
    dsimp only
    refine ⟨⟨hsp.2.1, by omega, hsp.2.2.2.1, by omega⟩,
      fun _ _ _ _ _ _ => hsp.1, ?_⟩
    intro hnone
    exact absurd hsp.1
      (by rw [hnone c hsp.2.1 (by omega) hsp.2.2.2.1 (by omega)]; simp)
  | none =>
    dsimp only
    rcases hF : scanCells.find? (fun c => freeCell g occ solid c) with _ | c
    · dsimp only
      have hnone := List.find?_eq_none.mp hF
      refine ⟨by decide, ?_, fun _ => rfl⟩
      intro c h1 h2 h3 h4 hfree
      exact absurd hfree (by
        simpa using hnone c ((scanCells_mem c).mpr ⟨h1, h2, h3, h4⟩))
    · dsimp only
      have hfree : freeCell g occ solid c = true := by
        have := List.find?_some hF
        simpa using this
      have hmem : c ∈ scanCells := List.mem_of_find?_eq_some hF
      have hbnd := (scanCells_mem c).mp hmem
      refine ⟨⟨hbnd.1, hbnd.2.1, hbnd.2.2.1, hbnd.2.2.2⟩,
        fun _ _ _ _ _ _ => hfree, ?_⟩
      intro hnone
      exact absurd hfree
        (by rw [hnone c hbnd.1 hbnd.2.1 hbnd.2.2.1 hbnd.2.2.2]; simp)

/-- Witness for `C10_random_empty_cell`: on an all-EMPTY grid the result
is eligible (discharging the eligible-tile hypothesis at (1, 1)); on an
all-WALL grid the result is the unchecked fallback (1, 1). -/
theorem C10_random_empty_cell_witness :
    (freeCell (fun _ _ => EMPTY) (fun _ => false) (fun _ => false)
      (random_empty_cell natRng (fun _ _ => EMPTY) (fun _ => false)
        (fun _ => false) (0 : ℕ)).1 = true) ∧
    ((random_empty_cell natRng (fun _ _ => WALL) (fun _ => false)
        (fun _ => false) (0 : ℕ)).1 = (1, 1)) := by
  constructor
  · exact (C10_random_empty_cell natRng (fun _ _ => EMPTY) (fun _ => false)
      (fun _ => false) (0 : ℕ)).2.1 (1, 1) (by decide) (by decide) (by decide)
      (by decide) (by decide)
  · exact (C10_random_empty_cell natRng (fun _ _ => WALL) (fun _ => false)
      (fun _ => false) (0 : ℕ)).2.2 (fun c _ _ _ _ => rfl)

/-! ## Wall type and hp initialization (game.py init_grid_once, lines
767-818) -/

/-- The wall-typing state built by `init_grid_once`: the per-tile wall
type id ('' for non-walls) and the per-tile hit points (0 for
non-walls). -/
structure WallInit where
  wall_type_id : ℤ → ℤ → String
  wall_hp : ℤ → ℤ → ℤ

/-- One full-row override (`for x in range(GRID_W)` at y): every WALL tile
of the row receives the given type and hp. -/
def rowOverride (g : Grid) (st : WallInit) (y : ℤ) (t : String) (hpv : ℤ) :
    WallInit :=
  { wall_type_id := fun y' x =>
      if y' = y ∧ 0 ≤ x ∧ x < GRID_W ∧ g y' x = WALL then t
      else st.wall_type_id y' x,
    wall_hp := fun y' x =>
      if y' = y ∧ 0 ≤ x ∧ x < GRID_W ∧ g y' x = WALL then hpv
      else st.wall_hp y' x }

/-- One column override excluding the corners
(`for y in range(1, GRID_H - 1)` at x). -/
def colOverride (g : Grid) (st : WallInit) (x : ℤ) (t : String) (hpv : ℤ) :
    WallInit :=
  { wall_type_id := fun y x' =>
      if x' = x ∧ 1 ≤ y ∧ y < GRID_H - 1 ∧ g y x' = WALL then t
      else st.wall_type_id y x',
    wall_hp := fun y x' =>
      if x' = x ∧ 1 ≤ y ∧ y < GRID_H - 1 ∧ g y x' = WALL then hpv
      else st.wall_hp y x' }

/-- The door override loop (game.py lines 798-802): each listed door
coordinate that is an in-bounds WALL tile receives the door type/hp. -/
def doorOverride (g : Grid) (st : WallInit) (doors : List Cell) (t : String)
    (hpv : ℤ) : WallInit :=
  doors.foldl
    (fun st d =>
      if 0 ≤ d.1 ∧ d.1 < GRID_W ∧ 0 ≤ d.2 ∧ d.2 < GRID_H ∧ g d.2 d.1 = WALL
      then
        { wall_type_id := fun y x =>
            if y = d.2 ∧ x = d.1 then t else st.wall_type_id y x,
          wall_hp := fun y x =>
            if y = d.2 ∧ x = d.1 then hpv else st.wall_hp y x }
      else st)
    st

/-- The wall typing of `init_grid_once` (game.py lines 767-818): all WALL
tiles start at the first catalog type (fallback 'stone1') with its
durability as hp; if 'outer_wall' is defined the TOP row is overridden;
then, ONLY when 'door1' is also defined, the door tiles are typed and the
bottom row and both columns are overridden with the outer type — the
bottom/left/right overrides sit inside the door branch in the source.
(When 'door1' is defined but 'outer_wall' is not, the source raises
NameError on the unbound `outer_hp`; that path, outside every claim, is
modeled as skipping the border writes.) -/
def init_wall_types (wcat : WallCatalog) (g : Grid) (door_coords : List Cell) :
    WallInit :=
  let default_type := match wcat with
    | [] => "stone1"
    | (k, _) :: _ => k
  let base : WallInit :=
    { wall_type_id := fun y x => if g y x = WALL then default_type else "",
      wall_hp := fun y x =>
        if g y x = WALL then hp_max_for_type wcat default_type else 0 }
  let outer_some := (wtGet wcat "outer_wall").isSome
  let outer_hp := hp_max_for_type wcat "outer_wall"
  let st1 := if outer_some then rowOverride g base 0 "outer_wall" outer_hp
    else base
  if (wtGet wcat "door1").isSome then
    let st2 := doorOverride g st1 door_coords "door1"
      (hp_max_for_type wcat "door1")
    if outer_some then
      let st3 := rowOverride g st2 (GRID_H - 1) "outer_wall" outer_hp
      let st4 := colOverride g st3 0 "outer_wall" outer_hp
      colOverride g st4 (GRID_W - 1) "outer_wall" outer_hp
    else st2
  else st1

/-- C7 (code bug): with a catalog that defines 'outer_wall' (and a default
'stone1') but no 'door1', the bottom border row keeps the interior default
type: only the top row is overridden, because the bottom/left/right
override loops are nested inside the door-type branch.  Evaluated on an
all-WALL grid: tile (5, 0) becomes 'outer_wall' but tile (5, GRID_H-1)
stays 'stone1' with the default hp 3 instead of the outer durability
100. -/
theorem C7_outer_wall_border_bug :
    let wcat : WallCatalog :=
      [("stone1", { stats := { durability := some 3 } }),
       ("outer_wall", { stats := { durability := some 100 } })]
    let g : Grid := fun _ _ => WALL
    let st := init_wall_types wcat g []
    (wtGet wcat "outer_wall").isSome = true ∧
    g (GRID_H - 1) 5 = WALL ∧
    st.wall_type_id 0 5 = "outer_wall" ∧
    st.wall_hp 0 5 = 100 ∧
    st.wall_type_id (GRID_H - 1) 5 = "stone1" ∧
    st.wall_hp (GRID_H - 1) 5 = 3 := by
  intro wcat g st
  refine ⟨rfl, rfl, ?_, ?_, ?_, ?_⟩ <;> decide

/-! ## Enemy simulation tick (game.py tick_enemies, lines 2001-2079)

Enemy positions are stored as cell-centered floats `[cx + 0.5, cy + 0.5]`
and truncated back to the integer cell at every read, so the embedding
carries the integer cell directly; every instance built by
`make_enemy_instance` has a position, so `pos` is total. -/

/-- `clamp` (game.py lines 206-207). -/
def clamp (v lo hi : ℤ) : ℤ := max lo (min hi v)

structure Enemy where
  eid : ℕ
  pos : Cell
  dir : ℤ × ℤ
  speed : ℤ
  next_move_ts : ℚ
deriving DecidableEq

/-- The eight candidate headings in the comprehension order of game.py
line 2066: dy outer over (-1, 0, 1), dx inner, skipping (0, 0). -/
def dirs8 : List (ℤ × ℤ) :=
  [(-1, -1), (0, -1), (1, -1), (-1, 0), (1, 0), (-1, 1), (0, 1), (1, 1)]

/-- The passability test of game.py lines 2035-2046: in-bounds, EMPTY, not
player-occupied, not a solid cell, not in the (incrementally maintained)
enemy occupancy set. -/
def passable (g : Grid) (occ : Cell → Bool) (solid : Cell → Bool)
    (e_occ : Finset Cell) (t : Cell) : Bool :=
  decide (0 ≤ t.1 ∧ t.1 < GRID_W ∧ 0 ≤ t.2 ∧ t.2 < GRID_H) &&
  decide (g t.2 t.1 = EMPTY) && !(occ t) && !(solid t) &&
  !(decide (t ∈ e_occ))

/-- The per-enemy body of the tick loop (game.py lines 2017-2079),
threaded over an accumulator of processed enemies, the enemy occupancy
set, and the random state.  An enemy with nonpositive speed or an
unelapsed timer is skipped; otherwise it first continues along its
nonzero last heading if passable, else takes the first passable heading
of a shuffled `dirs8`, else stays put; the occupancy set is updated by
popping the old cell and inserting the new one, and the timer is
rescheduled. -/
def tickEnemyStep (R : RngImpl) (g : Grid) (occ : Cell → Bool)
    (solid : Cell → Bool) (now : ℚ)
    (acc : List Enemy × Finset Cell × R.State) (e : Enemy) :
    List Enemy × Finset Cell × R.State :=
  let done := acc.1
  let eo := acc.2.1
  let rng := acc.2.2
  if e.speed ≤ 0 then (done ++ [e], eo, rng)
  else if now < e.next_move_ts then (done ++ [e], eo, rng)
  else
    let s := clamp e.speed 1 256
    let interval : ℚ := 3 - 2 * (((s : ℚ) - 1) / (256 - 1))
    let c := e.pos
    let d := e.dir
    let n : Cell := (c.1 + d.1, c.2 + d.2)
    if ¬(d.1 = 0 ∧ d.2 = 0) ∧ passable g occ solid eo n = true then
      (done ++ [{ e with pos := n, next_move_ts := now + interval }],
       insert n (eo.erase c), rng)
    else
      let sh := R.shuffle dirs8 rng
      match sh.1.find?
        (fun dd => passable g occ solid eo (c.1 + dd.1, c.2 + dd.2)) with
      | some dd =>
        (done ++ [{ e with
            dir := dd,
            pos := (c.1 + dd.1, c.2 + dd.2),
            next_move_ts := now + interval }],
         insert (c.1 + dd.1, c.2 + dd.2) (eo.erase c), sh.2)
      | none =>
        (done ++ [{ e with next_move_ts := now + interval }], eo, sh.2)

/-- `tick_enemies` (game.py lines 2001-2079): nothing happens without
enemies or with movement disabled by config; otherwise the per-enemy step
is folded over the enemy collection in iteration order, starting from the
occupancy set `enemy_occupied_cells()` (the set of current enemy
cells). -/
def tick_enemies (R : RngImpl) (g : Grid) (occ : Cell → Bool)
    (solid : Cell → Bool) (now : ℚ) (move_enabled : Bool)
    (es : List Enemy) (rng : R.State) : List Enemy × R.State :=
  if es = [] then (es, rng)
  else if move_enabled = false then (es, rng)
  else
    let r := es.foldl (tickEnemyStep R g occ solid now)
      ([], (es.map Enemy.pos).toFinset, rng)
    (r.1, r.2.2)

/-- A destination an enemy may legally move onto: in-bounds, EMPTY, not
player-occupied, not solid. -/
def legalDest (g : Grid) (occ : Cell → Bool) (solid : Cell → Bool)
    (t : Cell) : Prop :=
  (0 ≤ t.1 ∧ t.1 < GRID_W ∧ 0 ≤ t.2 ∧ t.2 < GRID_H) ∧
  g t.2 t.1 = EMPTY ∧ occ t = false ∧ solid t = false

/-- Relation between an enemy before and after the tick: it either kept
its cell or moved onto a legal destination. -/
def moveRel (g : Grid) (occ : Cell → Bool) (solid : Cell → Bool)
    (e e' : Enemy) : Prop :=
  e'.pos = e.pos ∨ legalDest g occ solid e'.pos

/-- The loop invariant of the tick fold: the occupancy set is exactly the
set of current cells of all enemies (processed and pending), those cells
are pairwise distinct, and none coincides with a player cell. -/
def tickInv (occ : Cell → Bool) (done rem : List Enemy)
    (eo : Finset Cell) : Prop :=
  eo = ((done ++ rem).map Enemy.pos).toFinset ∧
  ((done ++ rem).map Enemy.pos).Nodup ∧
  ∀ c ∈ (done ++ rem).map Enemy.pos, occ c = false

theorem nodup_replace_mid {l1 l2 : List Cell} {a b : Cell}
    (h : (l1 ++ a :: l2).Nodup) (hb : b ∉ l1 ++ a :: l2) :
    (l1 ++ b :: l2).Nodup := by
  rw [List.nodup_append] at h ⊢
  obtain ⟨h1, h2, h3⟩ := h
  rw [List.nodup_cons] at h2 ⊢
  have hb1 : b ∉ l1 := fun hx => hb (List.mem_append_left _ hx)
  have hb2 : b ∉ l2 := fun hx =>
    hb (List.mem_append_right _ (List.mem_cons_of_mem a hx))
  refine ⟨h1, ⟨hb2, h2.2⟩, ?_⟩
  intro x hx hmem
  rcases List.mem_cons.mp hmem with rfl | hm2
  · exact hb1 hx
  · exact h3 hx (List.mem_cons_of_mem a hm2)

theorem toFinset_mid (l1 l2 : List Cell) (a : Cell) :
    (l1 ++ a :: l2).toFinset = insert a (l1 ++ l2).toFinset := by
  simp [List.toFinset_append, Finset.union_insert]

theorem erase_toFinset_mid {l1 l2 : List Cell} {a : Cell}
    (h : (l1 ++ a :: l2).Nodup) :
    ((l1 ++ a :: l2).toFinset).erase a = (l1 ++ l2).toFinset := by
  rw [toFinset_mid]
  apply Finset.erase_insert
  rw [List.nodup_append] at h
  obtain ⟨h1, h2, h3⟩ := h
  rw [List.nodup_cons] at h2
  simp only [List.toFinset_append, Finset.mem_union, List.mem_toFinset]
  push_neg
  exact ⟨fun ha => h3 ha (List.mem_cons_self a l2), h2.1⟩

theorem passable_spec {g : Grid} {occ solid : Cell → Bool}
    {eo : Finset Cell} {t : Cell}
    (h : passable g occ solid eo t = true) :
    legalDest g occ solid t ∧ t ∉ eo := by
  unfold passable at h
  simp only [Bool.and_eq_true, decide_eq_true_eq, Bool.not_eq_true',
    decide_eq_false_iff_not] at h
  exact ⟨⟨h.1.1.1.1, h.1.1.1.2, h.1.1.2, h.1.2⟩, h.2⟩

/-- Every branch of the per-enemy step either keeps the enemy's cell and
the occupancy set, or moves the enemy to a cell that was passable against
the current occupancy set, popping the old cell and inserting the new. -/
theorem tickEnemyStep_cases (R : RngImpl) (g : Grid) (occ : Cell → Bool)
    (solid : Cell → Bool) (now : ℚ) (done : List Enemy) (eo : Finset Cell)
    (rng : R.State) (e : Enemy) :
    (∃ (e' : Enemy) (rng' : R.State),
      tickEnemyStep R g occ solid now (done, eo, rng) e =
        (done ++ [e'], eo, rng') ∧ e'.pos = e.pos) ∨
    (∃ (e' : Enemy) (n : Cell) (rng' : R.State),
      tickEnemyStep R g occ solid now (done, eo, rng) e =
        (done ++ [e'], insert n (eo.erase e.pos), rng') ∧ e'.pos = n ∧
      passable g occ solid eo n = true) := by
  unfold tickEnemyStep
  dsimp only
  split
  · exact Or.inl ⟨e, rng, rfl, rfl⟩
  · split
    · exact Or.inl ⟨e, rng, rfl, rfl⟩
    · split
      · next hcond => exact Or.inr ⟨_, _, rng, rfl, rfl, hcond.2⟩
      · split
        · next dd hF =>
          exact Or.inr ⟨_, _, _, rfl, rfl, by simpa using List.find?_some hF⟩
        · exact Or.inl ⟨_, _, rfl, rfl⟩

theorem inv_keep {occ : Cell → Bool} {done rem : List Enemy}
    {eo : Finset Cell} {e e' : Enemy}
    (hinv : tickInv occ done (e :: rem) eo) (hpos : e'.pos = e.pos) :
    tickInv occ (done ++ [e']) rem eo := by
  obtain ⟨h1, h2, h3⟩ := hinv
  have hL : ((done ++ [e']) ++ rem).map Enemy.pos =
      (done ++ e :: rem).map Enemy.pos := by
    simp [hpos]
  exact ⟨by rw [hL]; exact h1, by rw [hL]; exact h2, by rw [hL]; exact h3⟩

theorem inv_move {g : Grid} {occ solid : Cell → Bool} {done rem : List Enemy}
    {eo : Finset Cell} {e e' : Enemy} {n : Cell}
    (hinv : tickInv occ done (e :: rem) eo) (hpos : e'.pos = n)
    (hpass : passable g occ solid eo n = true) :
    tickInv occ (done ++ [e']) rem (insert n (eo.erase e.pos)) := by
  obtain ⟨h1, h2, h3⟩ := hinv
  obtain ⟨hleg, hnot⟩ := passable_spec hpass
  have hmid : (done ++ e :: rem).map Enemy.pos =
      done.map Enemy.pos ++ e.pos :: rem.map Enemy.pos := by simp
  rw [hmid] at h1 h2 h3
  have hnew : ((done ++ [e']) ++ rem).map Enemy.pos =
      done.map Enemy.pos ++ n :: rem.map Enemy.pos := by simp [hpos]
  have hnotL : n ∉ done.map Enemy.pos ++ e.pos :: rem.map Enemy.pos := by
    intro hmem
    apply hnot
    rw [h1, List.mem_toFinset]
    exact hmem
  refine ⟨?_, ?_, ?_⟩
  · rw [hnew, h1, erase_toFinset_mid h2, toFinset_mid]
  · rw [hnew]
    exact nodup_replace_mid h2 hnotL
  · rw [hnew]
    intro c hc
    rcases List.mem_append.mp hc with hc1 | hc2
    · exact h3 c (List.mem_append_left _ hc1)
    · rcases List.mem_cons.mp hc2 with rfl | hc3
      · exact hleg.2.2.1
      · exact h3 c (List.mem_append_right _ (List.mem_cons_of_mem _ hc3))

theorem tickFold_inv (R : RngImpl) (g : Grid) (occ : Cell → Bool)
    (solid : Cell → Bool) (now : ℚ) :
    ∀ (rem done : List Enemy) (eo : Finset Cell) (rng : R.State),
      tickInv occ done rem eo →
      (((rem.foldl (tickEnemyStep R g occ solid now)
          (done, eo, rng)).1.map Enemy.pos).Nodup ∧
       (∀ c ∈ (rem.foldl (tickEnemyStep R g occ solid now)
          (done, eo, rng)).1.map Enemy.pos, occ c = false) ∧
       ∃ suf, (rem.foldl (tickEnemyStep R g occ solid now)
          (done, eo, rng)).1 = done ++ suf ∧
         List.Forall₂ (moveRel g occ solid) rem suf) := by
  intro rem
  induction rem with
  | nil =>
    intro done eo rng hinv
    obtain ⟨_, h2, h3⟩ := hinv
    rw [List.append_nil] at h2 h3
    exact ⟨h2, h3, [], by simp, List.Forall₂.nil⟩
  | cons e rem ih =>
    intro done eo rng hinv
    rw [List.foldl_cons]
    rcases tickEnemyStep_cases R g occ solid now done eo rng e with
      ⟨e', rng', hstep, hpos⟩ | ⟨e', n, rng', hstep, hpos, hpass⟩
    · rw [hstep]
      obtain ⟨hnd, hocc, suf, hsuf, hrel⟩ :=
        ih (done ++ [e']) eo rng' (inv_keep hinv hpos)
      refine ⟨hnd, hocc, e' :: suf, ?_,
        List.Forall₂.cons (Or.inl hpos) hrel⟩
      rw [hsuf, List.append_assoc, List.singleton_append]
    · rw [hstep]
      obtain ⟨hnd, hocc, suf, hsuf, hrel⟩ :=
        ih (done ++ [e']) (insert n (eo.erase e.pos)) rng'
          (inv_move hinv hpos hpass)
      refine ⟨hnd, hocc, e' :: suf, ?_,
        List.Forall₂.cons (Or.inr (hpos ▸ (passable_spec hpass).1)) hrel⟩
      rw [hsuf, List.append_assoc, List.singleton_append]

/-- C3: one enemy tick preserves occupancy exclusivity.  If enemies start
on pairwise distinct cells none of which is a player cell, then after the
tick the enemies are still on pairwise distinct cells, none on a player
cell, and each enemy either kept its cell or moved onto a tile that is
in-bounds, EMPTY, not player-occupied and not solid (the branch order —
last heading first, then a shuffled heading, then staying put — is part
of `tickEnemyStep`). -/
theorem C3_tick_enemies_exclusivity (R : RngImpl) (g : Grid)
    (occ : Cell → Bool) (solid : Cell → Bool) (now : ℚ)
    (move_enabled : Bool) (es : List Enemy) (rng : R.State)
    (hnd : (es.map Enemy.pos).Nodup)
    (hocc : ∀ e ∈ es, occ e.pos = false) :
    (((tick_enemies R g occ solid now move_enabled es rng).1.map
        Enemy.pos).Nodup) ∧
    (∀ e' ∈ (tick_enemies R g occ solid now move_enabled es rng).1,
      occ e'.pos = false) ∧
    List.Forall₂ (moveRel g occ solid) es
      (tick_enemies R g occ solid now move_enabled es rng).1 := by
  unfold tick_enemies
  split
  · exact ⟨hnd, fun e' he' => hocc e' he',
      List.forall₂_same.mpr (fun e _ => Or.inl rfl)⟩
  · split
    · exact ⟨hnd, fun e' he' => hocc e' he',
        List.forall₂_same.mpr (fun e _ => Or.inl rfl)⟩
    · dsimp only
      have hinv0 : tickInv occ [] es ((es.map Enemy.pos).toFinset) := by
        refine ⟨by simp, by simpa using hnd, ?_⟩
        intro c hc
        rw [List.nil_append] at hc
        obtain ⟨e, he, rfl⟩ := List.mem_map.mp hc
        exact hocc e he
      obtain ⟨hnd', hocc', suf, hsuf, hrel⟩ :=
        tickFold_inv R g occ solid now es [] ((es.map Enemy.pos).toFinset)
          rng hinv0
      rw [List.nil_append] at hsuf
      refine ⟨hnd', ?_, ?_⟩
      · intro e' he'
        exact hocc' e'.pos (List.mem_map_of_mem Enemy.pos he')
      · rw [hsuf]
        exact hrel

/-- Witness for `C3_tick_enemies_exclusivity`: two enemies on distinct
cells of an open grid with a player at (9, 5); after the tick the enemy
cells are still pairwise distinct and disjoint from the player cell. -/
theorem C3_tick_enemies_exclusivity_witness :
    let es : List Enemy :=
      [{ eid := 1, pos := (5, 5), dir := (1, 0), speed := 0,
         next_move_ts := 0 },
       { eid := 2, pos := (7, 5), dir := (1, 0), speed := 10,
         next_move_ts := 0 }]
    let occW : Cell → Bool := fun c => decide (c = (9, 5))
    (((tick_enemies natRng (fun _ _ => EMPTY) occW (fun _ => false) 10 true
        es (0 : ℕ)).1.map Enemy.pos).Nodup) ∧
    (∀ e' ∈ (tick_enemies natRng (fun _ _ => EMPTY) occW (fun _ => false)
        10 true es (0 : ℕ)).1, occW e'.pos = false) := by
  intro es occW
  have h := C3_tick_enemies_exclusivity natRng (fun _ _ => EMPTY) occW
    (fun _ => false) 10 true es (0 : ℕ) (by decide) (by decide)
  exact ⟨h.1, h.2.1⟩

/-! ## World generation pipeline (game.py init_grid_once and the
generation helpers), with the random source threaded explicitly.  Python
float arithmetic in the biome segmentation is carried in ℚ; `int()`
truncation of the nonnegative quantities involved is the floor. -/

/-- The slice of the game-config bundle the generation pipeline reads
(config defaults baked in per game.py's `.get(..., default)` calls). -/
structure GameConfig where
  seed : Option String := none
  rooms_count : ℤ := 12
  biomes_count : ℤ := 6
  biomes_radius : ℤ := 24
  spawns_random_items : ℤ := 0
  spawns_random_chests : ℤ := 0
  map_entities : List EntityRec := []

/-- `carve_rect` (game.py lines 1557-1562): clamped inclusive rectangle
fill. -/
def carve_rect (g : Grid) (x0 y0 x1 y1 : ℤ) (v : ℕ) : Grid :=
  fun y x =>
    if max 0 y0 ≤ y ∧ y ≤ min (GRID_H - 1) y1 ∧
        max 0 x0 ≤ x ∧ x ≤ min (GRID_W - 1) x1
    then v else g y x

/-- Single-cell write `g[y][x] = v`. -/
def setCell (g : Grid) (x y : ℤ) (v : ℕ) : Grid :=
  fun y' x' => if y' = y ∧ x' = x then v else g y' x'

/-- `cell_base` (game.py lines 1670-1673): macro cell to block base. -/
def cell_base (cw ww i j : ℤ) : ℤ × ℤ :=
  (1 + i * (cw + ww), 1 + j * (cw + ww))

/-- `carve_cell` (game.py lines 1675-1677). -/
def carve_cell (cw ww : ℤ) (g : Grid) (i j : ℤ) : Grid :=
  let b := cell_base cw ww i j
  carve_rect g b.1 b.2 (b.1 + cw - 1) (b.2 + cw - 1) EMPTY

/-- `open_between` (game.py lines 1679-1694): open the separating 1-tile
wall between two adjacent macro cells. -/
def open_between (cw ww : ℤ) (g : Grid) (i1 j1 i2 j2 : ℤ) : Grid :=
  let b1 := cell_base cw ww i1 j1
  let b2 := cell_base cw ww i2 j2
  if i2 = i1 + 1 ∧ j2 = j1 then
    carve_rect g (b1.1 + cw) b1.2 (b1.1 + cw) (b1.2 + cw - 1) EMPTY
  else if i2 = i1 - 1 ∧ j2 = j1 then
    carve_rect g (b2.1 + cw) b2.2 (b2.1 + cw) (b2.2 + cw - 1) EMPTY
  else if j2 = j1 + 1 ∧ i2 = i1 then
    carve_rect g b1.1 (b1.2 + cw) (b1.1 + cw - 1) (b1.2 + cw) EMPTY
  else if j2 = j1 - 1 ∧ i2 = i1 then
    carve_rect g b2.1 (b2.2 + cw) (b2.1 + cw - 1) (b2.2 + cw) EMPTY
  else g

/-- `neighbors` (game.py lines 1703-1714): the in-range 4-neighbors of a
macro cell, shuffled. -/
def neighborsM (R : RngImpl) (MW MH i j : ℤ) (rng : R.State) :
    List (ℤ × ℤ) × R.State :=
  let opts :=
    (if 0 < i then [(i - 1, j)] else []) ++
    (if i + 1 < MW then [(i + 1, j)] else []) ++
    (if 0 < j then [(i, j - 1)] else []) ++
    (if j + 1 < MH then [(i, j + 1)] else [])
  R.shuffle opts rng

/-- The maze-walk state: grid, visited macro cells, DFS stack (top at the
head, matching Python's `stack[-1]`). -/
abbrev MazeSt := Grid × ((ℤ × ℤ) → Bool) × List (ℤ × ℤ)

/-- The room-expansion double loop (game.py lines 1722-1730). -/
def roomExpand (cw ww MW MH i j : ℤ) (rw rh : ℕ) (st : MazeSt) : MazeSt :=
  ((List.range rh).flatMap
    (fun dj => (List.range rw).map (fun di => ((di : ℤ), (dj : ℤ))))).foldl
    (fun st d =>
      let ii := i + d.1
      let jj := j + d.2
      if 0 ≤ ii ∧ ii < MW ∧ 0 ≤ jj ∧ jj < MH ∧ st.2.1 (ii, jj) = false then
        (carve_cell cw ww (open_between cw ww st.1 i j ii jj) ii jj,
         fun c => if c = (ii, jj) then true else st.2.1 c,
         (ii, jj) :: st.2.2)
      else st) st

/-- The `while stack` loop of `generate_maze` (game.py lines 1716-1743),
with explicit fuel; the source terminates with probability 1 but has no
fixed bound (a room roll that expands nothing re-runs the loop body). -/
def mazeLoop (R : RngImpl) (cw ww MW MH : ℤ) (room_prob : ℚ) :
    ℕ → MazeSt × R.State → MazeSt × R.State
  | 0, st => st
  | fuel + 1, ((g, visited, stack), rng) =>
    match stack with
    | [] => ((g, visited, stack), rng)
    | (i, j) :: rest =>
      let rdraw := R.rand01 rng
      if rdraw.1 < room_prob then
        let pw : ℕ × R.State :=
          if i + 2 < MW then
            let p := R.choiceIdx rdraw.2 2
            ((if p.1 = 0 then 2 else 3), p.2)
          else (2, rdraw.2)
        let ph : ℕ × R.State :=
          if j + 2 < MH then
            let p := R.choiceIdx pw.2 2
            ((if p.1 = 0 then 1 else 2), p.2)
          else (1, pw.2)
        let st' := roomExpand cw ww MW MH i j pw.1 ph.1
          (g, visited, (i, j) :: rest)
        mazeLoop R cw ww MW MH room_prob fuel (st', ph.2)
      else
        let nb := neighborsM R MW MH i j rdraw.2
        let unv := nb.1.filter (fun c => visited c = false)
        if unv.isEmpty then
          mazeLoop R cw ww MW MH room_prob fuel ((g, visited, rest), nb.2)
        else
          let pk := R.choiceIdx nb.2 unv.length
          let nc := unv.getD pk.1 (0, 0)
          let g' := carve_cell cw ww
            (open_between cw ww g i j nc.1 nc.2) nc.1 nc.2
          mazeLoop R cw ww MW MH room_prob fuel
            ((g', fun c => if c = nc then true else visited c,
              nc :: (i, j) :: rest), pk.2)

/-- `generate_maze` (game.py lines 1653-1743). -/
def generate_maze (R : RngImpl) (g0 : Grid) (cw ww : ℤ) (room_prob : ℚ)
    (fuel : ℕ) (rng : R.State) : Grid × R.State :=
  let stride := cw + ww
  let MW := max 1 ((GRID_W - 1) / stride)
  let MH := max 1 ((GRID_H - 1) / stride)
  let psi := R.randrange rng 0 MW
  let psj := R.randrange psi.2 0 MH
  let visited0 : (ℤ × ℤ) → Bool := fun c => decide (c = (psi.1, psj.1))
  let g1 := carve_cell cw ww g0 psi.1 psj.1
  let out := mazeLoop R cw ww MW MH room_prob fuel
    ((g1, visited0, [(psi.1, psj.1)]), psj.2)
  (out.1.1, out.2)

/-- One door placement with its outward tunnel (game.py lines
1609-1643). -/
def doorStep (x0 y0 x1 y1 : ℤ) (g : Grid) (d : Cell) : Grid :=
  let dx := d.1
  let dy := d.2
  let g1 := if g dy dx ≠ WALL then setCell g dx dy WALL else g
  if dy = y0 ∧ dx ≠ x0 ∧ dx ≠ x1 then
    (List.range 3).foldl (fun g2 t =>
      let ty := (dy - 1) - (t : ℤ)
      if 1 ≤ ty ∧ ty < GRID_H - 1 then setCell g2 dx ty EMPTY else g2) g1
  else if dy = y1 ∧ dx ≠ x0 ∧ dx ≠ x1 then
    (List.range 3).foldl (fun g2 t =>
      let ty := (dy + 1) + (t : ℤ)
      if 1 ≤ ty ∧ ty < GRID_H - 1 then setCell g2 dx ty EMPTY else g2) g1
  else if dx = x0 ∧ dy ≠ y0 ∧ dy ≠ y1 then
    (List.range 3).foldl (fun g2 t =>
      let tx := (dx - 1) - (t : ℤ)
      if 1 ≤ tx ∧ tx < GRID_W - 1 then setCell g2 tx dy EMPTY else g2) g1
  else if dx = x1 ∧ dy ≠ y0 ∧ dy ≠ y1 then
    (List.range 3).foldl (fun g2 t =>
      let tx := (dx + 1) + (t : ℤ)
      if 1 ≤ tx ∧ tx < GRID_W - 1 then setCell g2 tx dy EMPTY else g2) g1
  else g1

/-- The placement-attempt loop of `add_rooms` (game.py lines 1585-1649).
State: grid, accumulated door list, rooms placed; the attempt count is
the loop fuel. -/
def add_rooms_loop (R : RngImpl) (room_count size : ℤ) :
    ℕ → (Grid × List Cell × ℤ) × R.State → (Grid × List Cell × ℤ) × R.State
  | 0, st => st
  | fuel + 1, ((g, doors, placed), rng) =>
    if room_count ≤ placed then ((g, doors, placed), rng)
    else
      let margin : ℤ := 1 + 3 + 1
      let px0 := R.randrange rng margin (GRID_W - margin - size + 1)
      let py0 := R.randrange px0.2 margin (GRID_H - margin - size + 1)
      let x0 := px0.1
      let y0 := py0.1
      let x1 := x0 + size - 1
      let y1 := y0 + size - 1
      let g1 := carve_rect g x0 y0 x1 y1 WALL
      let g2 := carve_rect g1 (x0 + 1) (y0 + 1) (x1 - 1) (y1 - 1) EMPTY
      let mids : List Cell :=
        [(x0 + size / 2, y0), (x0 + size / 2, y1),
         (x0, y0 + size / 2), (x1, y0 + size / 2)]
      let pk := R.randint py0.2 1 4
      let pm := R.shuffle mids pk.2
      let picks := pm.1.take pk.1.toNat
      let g3 := picks.foldl (doorStep x0 y0 x1 y1) g2
      add_rooms_loop R room_count size fuel
        ((g3, doors ++ picks, placed + 1), pm.2)

/-- `add_rooms` (game.py lines 1565-1650); also returns the door list. -/
def add_rooms (R : RngImpl) (g : Grid) (room_count : ℤ) (size : ℤ)
    (rng : R.State) : Grid × List Cell × R.State :=
  if room_count ≤ 0 ∨ size < 5 then (g, [], rng)
  else
    let attempts := (max 50 (room_count * 20)).toNat
    let out := add_rooms_loop R room_count size attempts ((g, [], 0), rng)
    (out.1.1, out.1.2.1, out.2)

/-- `round(sqrt(q))` for the nonnegative rationals of the biome
segmentation: `floor(2 * sqrt q)` is `Nat.sqrt ⌊4q⌋`, and adding 1 and
halving rounds to the nearest integer (half-up; the source's inputs,
`count * (256/128)`, never hit an exact half). -/
def roundSqrt (q : ℚ) : ℤ :=
  ((Nat.sqrt (4 * q).floor.toNat + 1) / 2 : ℕ)

/-- The biome-room carve at one center (game.py lines 876-885): a circle
of radius 12 is cleared, skipped entirely if it would cross the outer
wall. -/
def carveBiomeRoom (g : Grid) (cx cy : ℤ) : Grid :=
  if cx - 12 < 1 ∨ cx + 12 > GRID_W - 2 ∨ cy - 12 < 1 ∨ cy + 12 > GRID_H - 2
  then g
  else fun y x =>
    if cy - 12 ≤ y ∧ y ≤ cy + 12 ∧ cx - 12 ≤ x ∧ x ≤ cx + 12 ∧
        (x - cx) * (x - cx) + (y - cy) * (y - cy) ≤ 12 * 12
    then EMPTY else g y x

/-- The biome-id field (game.py lines 891-900): each interior tile takes
the id of the FIRST center whose radius-circle contains it, else 0. -/
def biomeAt (centers : List (ℤ × ℤ × ℤ)) (radius : ℤ) (y x : ℤ) : ℤ :=
  if 1 ≤ x ∧ x ≤ GRID_W - 2 ∧ 1 ≤ y ∧ y ≤ GRID_H - 2 then
    match centers.find? (fun c =>
        decide ((x - c.1) * (x - c.1) + (y - c.2.1) * (y - c.2.1) ≤
          radius * radius)) with
    | some c => c.2.2
    | none => 0
  else 0

/-- `generate_biomes` (game.py lines 820-901): center selection over the
aspect-matched segmentation with shuffled ids, circle carving into the
grid, and the first-match biome field.  Returns (biome field, centers,
carved grid, random state). -/
def generate_biomes (R : RngImpl) (count radius : ℤ) (g : Grid)
    (rng : R.State) : (ℤ → ℤ → ℤ) × List (ℤ × ℤ × ℤ) × Grid × R.State :=
  if count ≤ 0 then (fun _ _ => 0, [], g, rng)
  else
    let room_r : ℤ := 12
    let aspect : ℚ := (GRID_W : ℚ) / max 1 (GRID_H : ℚ)
    let cols : ℤ := max 1 (roundSqrt ((count : ℚ) * aspect))
    let rows : ℤ := max 1 ((count + cols - 1) / cols)
    let seg_w : ℚ := (GRID_W : ℚ) / (cols : ℚ)
    let seg_h : ℚ := (GRID_H : ℚ) / (rows : ℚ)
    let margin : ℤ := 2
    let min_edge : ℤ := max 5 room_r
    let ids : List ℤ := (List.range count.toNat).map (fun k => (k : ℤ) + 1)
    let pids := R.shuffle ids rng
    let rcPairs : List (ℤ × ℤ) :=
      (List.range rows.toNat).flatMap
        (fun r => (List.range cols.toNat).map (fun c => ((r : ℤ), (c : ℤ))))
    let st := rcPairs.foldl
      (fun (st : List (ℤ × ℤ × ℤ) × ℤ × R.State) rc =>
        let centers := st.1
        let idx := st.2.1
        let rg := st.2.2
        if count < idx then st
        else
          let r := rc.1
          let c := rc.2
          let x0 := ⌊(c : ℚ) * seg_w⌋
          let y0 := ⌊(r : ℚ) * seg_h⌋
          let x1 := ⌊((c : ℚ) + 1) * seg_w⌋ - 1
          let y1 := ⌊((r : ℚ) + 1) * seg_h⌋ - 1
          let x0' := max (1 + min_edge) (x0 + margin)
          let y0' := max (1 + min_edge) (y0 + margin)
          let x1' := min (GRID_W - 2 - min_edge) (x1 - margin)
          let y1' := min (GRID_H - 2 - min_edge) (y1 - margin)
          if x1' < x0' ∨ y1' < y0' then
            let pcx := R.randrange rg (1 + min_edge) (GRID_W - 1 - min_edge)
            let pcy := R.randrange pcx.2 (1 + min_edge) (GRID_H - 1 - min_edge)
            (centers ++ [(pcx.1, pcy.1, pids.1.getD (idx - 1).toNat 0)],
             idx + 1, pcy.2)
          else
            let pcx := R.randrange rg x0' (x1' + 1)
            let pcy := R.randrange pcx.2 y0' (y1' + 1)
            (centers ++ [(pcx.1, pcy.1, pids.1.getD (idx - 1).toNat 0)],
             idx + 1, pcy.2))
      ([], 1, pids.2)
    let centers := st.1
    let g2 := centers.foldl (fun gg c => carveBiomeRoom gg c.1 c.2.1) g
    (fun y x => biomeAt centers radius y x, centers, g2, st.2.2)

/-- Accumulate a rolled quantity into the (insertion-ordered) contents
map, mirroring the Python dict `out[item_id] = out.get(item_id, 0) +
qty`. -/
def upsertQty (l : List (String × ℤ)) (k : String) (v : ℤ) :
    List (String × ℤ) :=
  if l.any (fun p => p.1 = k) then
    l.map (fun p => if p.1 = k then (p.1, p.2 + v) else p)
  else l ++ [(k, v)]

/-- `_roll_container_contents` (game.py lines 1116-1167): N weighted
draws with replacement from the container's `maycontain` table (N =
`randint(1, numberitems)`), each with a `randint(min, max)` quantity,
accumulated per item id; `bisect_left(cdf, r)` is the number of cdf
entries below r. -/
def roll_container_contents (R : RngImpl) (db : ItemCatalog)
    (item_type : String) (rng : R.State) : List (String × ℤ) × R.State :=
  match dbGet db item_type with
  | none => ([], rng)
  | some it =>
    if it.container = false then ([], rng)
    else
      let pool := it.maycontain
      if pool.isEmpty then ([], rng)
      else
        let max_items := it.numberitems.getD 0
        if max_items ≤ 0 then ([], rng)
        else
          let pd := R.randint rng 1 max_items
          let draws := max 1 (min max_items pd.1)
          let weights := pool.map (fun e => max 0 (e.weight.getD 1))
          let total_w := if weights.sum = 0 then 1 else weights.sum
          let probs := weights.map (fun w => w / total_w)
          let cdf := (probs.scanl (· + ·) 0).tail
          let out := (List.range draws.toNat).foldl
            (fun (st : List (String × ℤ) × R.State) _ =>
              let pr := R.rand01 st.2
              let idx0 : ℤ :=
                ((cdf.filter (fun p => decide (p < pr.1))).length : ℤ)
              let idx := max 0 (min ((pool.length : ℤ) - 1) idx0)
              let e := pool.getD idx.toNat {}
              let qmin := match e.min with
                | none => 1
                | some v => if v = 0 then 1 else v
              let qmax := match e.max with
                | none => qmin
                | some v => if v = 0 then qmin else v
              let pq := R.randint pr.2 (max 1 qmin) (max 1 qmax)
              if e.item = "" then (st.1, pq.2)
              else (upsertQty st.1 e.item pq.1, pq.2))
            ([], pd.2)
          (out.1.filter (fun p => decide (0 < p.2)), out.2)

/-- `_attach_container_contents` (game.py lines 1170-1193), with the
scroll distribution queue threaded explicitly. -/
def attach_container_contents (R : RngImpl) (db : ItemCatalog)
    (ent : EntityRec) (q : List String) (rng : R.State) :
    EntityRec × List String × R.State :=
  if ent.type ≠ "item" then (ent, q, rng)
  else if ent.item_id = "" then (ent, q, rng)
  else if ent.container then
    match q with
    | s :: rest => ({ ent with contents := ent.contents ++ [(s, 1)] },
        rest, rng)
    | [] => (ent, q, rng)
  else
    match dbGet db ent.item_id with
    | none => (ent, q, rng)
    | some it =>
      if it.container = false then (ent, q, rng)
      else
        let pc := roll_container_contents R db ent.item_id rng
        let ent1 := { ent with container := true, contents := pc.1 }
        match q with
        | s :: rest => ({ ent1 with contents := ent1.contents ++ [(s, 1)] },
            rest, pc.2)
        | [] => (ent1, q, pc.2)

/-- `item_generator` (game.py lines 1058-1088): `count` random pickups on
eligible cells, item type drawn uniformly from the active catalog entries
with allowed slots. -/
def item_generator (R : RngImpl) (db : ItemCatalog) (g : Grid)
    (occ solid : Cell → Bool) (count : ℤ) (rng : R.State) :
    List EntityRec × R.State :=
  let candidates :=
    (db.filter (fun p => ¬p.2.allowed_slots.isEmpty ∧ p.2.active = true)).map
      Prod.fst
  if candidates.isEmpty then ([], rng)
  else
    (List.range (max 0 count).toNat).foldl
      (fun (st : List EntityRec × R.State) _ =>
        let pc := random_empty_cell R g occ solid st.2
        let pi := R.choiceIdx pc.2 candidates.length
        let item_id := candidates.getD pi.1 ""
        let ent : EntityRec :=
          { type := "item", item_id := item_id,
            pos := ((pc.1.1 : ℚ) + 1 / 2, (pc.1.2 : ℚ) + 1 / 2) }
        (st.1 ++ [ent], pi.2))
      ([], rng)

/-- `chest_generator` (game.py lines 1091-1113): `count` chests on
eligible cells, contents attached immediately. -/
def chest_generator (R : RngImpl) (db : ItemCatalog) (g : Grid)
    (occ solid : Cell → Bool) (count : ℤ) (q : List String)
    (rng : R.State) : List EntityRec × List String × R.State :=
  (List.range (max 0 count).toNat).foldl
    (fun (st : List EntityRec × List String × R.State) _ =>
      let pc := random_empty_cell R g occ solid st.2.2
      let ent : EntityRec :=
        { type := "item", item_id := "chest_basic",
          pos := ((pc.1.1 : ℚ) + 1 / 2, (pc.1.2 : ℚ) + 1 / 2) }
      let pa := attach_container_contents R db ent st.2.1 pc.2
      (st.1 ++ [pa.1], pa.2.1, pa.2.2))
    ([], q, rng)

/-- `rebuild_solid_cells` (game.py lines 968-982) as a predicate: cells
blocked by in-bounds 'item' entities (float positions truncated to the
cell). -/
def solidCellsOf (ents : List EntityRec) : Cell → Bool :=
  fun c => ents.any (fun e =>
    decide (e.type = "item") &&
    decide ((⌊e.pos.1⌋, ⌊e.pos.2⌋) = c) &&
    decide (0 ≤ ⌊e.pos.1⌋ ∧ ⌊e.pos.1⌋ < GRID_W ∧
      0 ≤ ⌊e.pos.2⌋ ∧ ⌊e.pos.2⌋ < GRID_H))

/-- `init_entities_once` (game.py lines 904-965): configured map
entities, then random item and chest spawns, then one demon spawner per
biome center (skipped on cell conflict), then the container-contents
attach pass over the whole list. -/
def init_entities_once (R : RngImpl) (db : ItemCatalog) (cfg : GameConfig)
    (biome_centers : List (ℤ × ℤ × ℤ)) (g : Grid)
    (occ solid : Cell → Bool) (q : List String) (rng : R.State) :
    List EntityRec × List String × R.State :=
  let ents0 := cfg.map_entities
  let p1 := if 0 < cfg.spawns_random_items then
      item_generator R db g occ solid cfg.spawns_random_items rng
    else ([], rng)
  let ents1 := ents0 ++ p1.1
  let p2 := if 0 < cfg.spawns_random_chests then
      chest_generator R db g occ solid cfg.spawns_random_chests q p1.2
    else ([], q, p1.2)
  let ents2 := ents1 ++ p2.1
  let ents3 := biome_centers.foldl (fun acc c =>
    let conflict := acc.any (fun e =>
      decide (⌊e.pos.1⌋ = c.1 ∧ ⌊e.pos.2⌋ = c.2.1))
    if conflict then acc
    else
      let ent : EntityRec :=
        { type := "item", item_id := "demon_spawn",
          pos := ((c.1 : ℚ) + 1 / 2, (c.2.1 : ℚ) + 1 / 2) }
      acc ++ [ent]) ents2
  let p3 := ents3.foldl
    (fun (st : List EntityRec × List String × R.State) ent =>
      let pa := attach_container_contents R db ent st.2.1 st.2.2
      (st.1 ++ [pa.1], pa.2.1, pa.2.2)) ([], p2.2.1, p2.2.2)
  (p3.1, p3.2.1, p3.2.2)

/-- `init_grid_once` (game.py lines 728-818): optional seeding, maze
carving (corridor 2, wall 1, room probability 0.08), rooms with doors,
biome field with circle carving, the 8x8 start-area clear, and the wall
type/hp initialization.  Returns (grid, biome field, centers, wall state,
door list, random state). -/
def init_grid_once (R : RngImpl) (cfg : GameConfig) (wcat : WallCatalog)
    (fuel : ℕ) (r0 : R.State) :
    Grid × (ℤ → ℤ → ℤ) × List (ℤ × ℤ × ℤ) × WallInit × List Cell ×
      R.State :=
  let r1 := match cfg.seed with
    | none => r0
    | some s => if s = "" then r0 else R.seedFn s
  let g0 : Grid := fun _ _ => WALL
  let pm := generate_maze R g0 2 1 (8 / 100) fuel r1
  let pr := add_rooms R pm.1 cfg.rooms_count 9 pm.2
  let pb := generate_biomes R cfg.biomes_count cfg.biomes_radius pr.1
    pr.2.2
  let sy0 := max 1 (GRID_H / 2 - 4)
  let sy1 := min (GRID_H - 2) (sy0 + 7)
  let g4 := carve_rect pb.2.2.1 1 sy0 8 sy1 EMPTY
  let walls := init_wall_types wcat g4 pr.2.1
  (g4, pb.1, pb.2.1, walls, pr.2.1, pb.2.2.2)

/-! ## Enemy spawning at generation time (game.py init_random_enemies_once,
lines 346-459, and make_enemy_instance, lines 209-278). -/

/-- The slice of an enemy type record the spawner reads. -/
structure EnemyType where
  boss : Bool := false
  tier : String := ""
  speed : ℤ := 0
deriving DecidableEq

abbrev EnemyCatalog := List (String × EnemyType)

/-- `_enemy_type_lists` (game.py lines 353-367). -/
def enemy_type_lists (ecat : EnemyCatalog) :
    List String × List String × List String :=
  ecat.foldl (fun acc p =>
    if p.1 = "" then acc
    else if p.2.boss then
      if p.2.tier.toLower = "super" then (acc.1, acc.2.1, acc.2.2 ++ [p.1])
      else (acc.1, acc.2.1 ++ [p.1], acc.2.2)
    else (acc.1 ++ [p.1], acc.2.1, acc.2.2)) ([], [], [])

/-- `_special_item_ids` (game.py lines 346-350). -/
def special_item_ids (db : ItemCatalog) : List String :=
  (db.filter (fun p => p.2.special = true)).map Prod.fst

/-- An enemy instance as spawned (make_enemy_instance); the stat snapshot
and render hints are deterministic copies of the type template and are
not carried; `next_move_ts` is the only wall-clock-dependent field. -/
structure EnemyInst where
  id : ℕ
  type : String
  pos : ℚ × ℚ
  dir : ℤ × ℤ
  speed : ℤ
  next_move_ts : ℚ
  carried : List String := []
  aff_fear : Option String := none
  aff_desire : Option String := none
  aff_vuln : Option String := none
deriving DecidableEq

/-- The placement content of a spawned enemy: everything except the
wall-clock movement timer. -/
def enemyPlacement (e : EnemyInst) :
    ℕ × String × (ℚ × ℚ) × (ℤ × ℤ) × ℤ × List String ×
      (Option String × Option String × Option String) :=
  (e.id, e.type, e.pos, e.dir, e.speed, e.carried,
   (e.aff_fear, e.aff_desire, e.aff_vuln))

/-- `make_enemy_instance` (game.py lines 209-278): speed clamped to
0..256, cell-centered float position, jittered movement timer (one
`uniform` draw when the speed is positive), and a random initial heading
from `dirs8`. -/
def make_enemy_instance (R : RngImpl) (ecat : EnemyCatalog) (etype : String)
    (cx cy : ℤ) (now : ℚ) (count : ℕ) (rng : R.State) :
    EnemyInst × R.State :=
  let tdef := (ecat.find? (fun p => p.1 = etype)).map Prod.snd
  let speed := clamp (match tdef with
    | some t => t.speed
    | none => 0) 0 256
  let interval : ℚ := 3 - 2 * ((((clamp speed 1 256 : ℤ) : ℚ) - 1) / (256 - 1))
  let p := if 0 < speed ∧ 0 < interval then
      (let u := R.uniform rng 0 interval
       (now + u.1, u.2))
    else ((0 : ℚ), rng)
  let pk := R.choiceIdx p.2 8
  let dir := dirs8.getD pk.1 (0, 0)
  ({ id := count + 1, type := etype,
     pos := ((cx : ℚ) + 1 / 2, (cy : ℚ) + 1 / 2),
     dir := dir, speed := speed, next_move_ts := p.1 }, pk.2)

/-- `_spawn_of_type` (game.py lines 396-402): an eligible random cell,
then a fresh instance numbered `len(enemies) + 1`. -/
def spawn_of_type (R : RngImpl) (ecat : EnemyCatalog) (g : Grid)
    (occ solid : Cell → Bool) (etype : String) (now : ℚ)
    (enemies_len : ℕ) (rng : R.State) : EnemyInst × R.State :=
  let pc := random_empty_cell R g occ solid rng
  make_enemy_instance R ecat etype pc.1.1 pc.1.2 now enemies_len pc.2

/-- The slime-spawning loop body (game.py lines 412-421): spawn the i-th
carrier slime and give it the i-th special item. -/
def slimeStep (R : RngImpl) (ecat : EnemyCatalog) (g : Grid)
    (occ solid : Cell → Bool) (now : ℚ) (slime_types : List String)
    (st : List EnemyInst × R.State) (p : ℕ × String) :
    List EnemyInst × R.State :=
  let tid := slime_types.getD (p.1 % max 1 slime_types.length) ""
  let pi := spawn_of_type R ecat g occ solid tid now st.1.length st.2
  (st.1 ++ [{ pi.1 with carried := [p.2] }], pi.2)

/-- The sub-boss loop body (game.py lines 428-440): spawn and assign
three affinity picks from a freshly shuffled special-item pool. -/
def subBossStep (R : RngImpl) (ecat : EnemyCatalog) (g : Grid)
    (occ solid : Cell → Bool) (now : ℚ) (all_special : List String)
    (st : List EnemyInst × R.State) (tid : String) :
    List EnemyInst × R.State :=
  let pi := spawn_of_type R ecat g occ solid tid now st.1.length st.2
  let pp := R.shuffle all_special pi.2
  let picks := pp.1.take 3
  (st.1 ++ [{ pi.1 with
      aff_fear := picks.get? 0,
      aff_desire := picks.get? 1,
      aff_vuln := picks.get? 2 }], pp.2)

/-- The big-boss loop body (game.py lines 442-456): like the sub-boss
step but drawing from the pool of special items not yet used by another
big boss, recording the picks as used. -/
def bigBossStep (R : RngImpl) (ecat : EnemyCatalog) (g : Grid)
    (occ solid : Cell → Bool) (now : ℚ) (all_special : List String)
    (st : (List EnemyInst × List String) × R.State) (tid : String) :
    (List EnemyInst × List String) × R.State :=
  let pi := spawn_of_type R ecat g occ solid tid now st.1.1.length st.2
  let pool := all_special.filter (fun i => ¬ st.1.2.contains i)
  let pp := R.shuffle pool pi.2
  let picks := if 3 ≤ pp.1.length then pp.1.take 3 else pp.1
  ((st.1.1 ++ [{ pi.1 with
      aff_fear := picks.get? 0,
      aff_desire := picks.get? 1,
      aff_vuln := picks.get? 2 }], st.1.2 ++ picks), pp.2)

/-- `init_random_enemies_once` (game.py lines 370-459): 18 slimes each
carrying one unique special item, then every sub-boss with three shuffled
affinity picks, then every big boss with three affinity picks drawn
without overlap across big bosses. -/
def init_random_enemies_once (R : RngImpl) (db : ItemCatalog)
    (ecat : EnemyCatalog) (g : Grid) (occ solid : Cell → Bool) (now : ℚ)
    (rng : R.State) : List EnemyInst × R.State :=
  let type_ids := (ecat.filter (fun p => p.1 ≠ "")).map Prod.fst
  if type_ids.isEmpty then ([], rng)
  else
    let lists := enemy_type_lists ecat
    let normal := lists.1
    let subb := lists.2.1
    let bigb := lists.2.2
    let sp := R.shuffle (special_item_ids db) rng
    let slime0 := normal.filter (fun t => t.startsWith "slime_")
    let slime_types := if slime0.isEmpty then normal else slime0
    let carry_items := sp.1.take 18
    let st1 := if slime_types.isEmpty then (([] : List EnemyInst), sp.2)
      else carry_items.enum.foldl
        (slimeStep R ecat g occ solid now slime_types) ([], sp.2)
    let all_special := special_item_ids db
    let st2 := subb.foldl
      (subBossStep R ecat g occ solid now all_special) st1
    let st3 := bigb.foldl
      (bigBossStep R ecat g occ solid now all_special) ((st2.1, []), st2.2)
    (st3.1.1, st3.2)

/-- The generation-time world slice produced by `init_grid_once`. -/
structure GenWorld where
  grid : Grid
  biomes : ℤ → ℤ → ℤ
  centers : List (ℤ × ℤ × ℤ)
  walls : WallInit
  doors : List Cell

/-- The full world-generation pipeline in the startup order of
`run_game` (game.py lines 2229-2232): grid/maze/rooms/biomes/walls, then
entity placement, then enemy spawning.  At a fresh start the player
occupancy map and the solid-cell set are empty; the solid set used for
enemy placement is the one rebuilt from the placed entities. -/
def world_gen_pipeline (R : RngImpl) (cfg : GameConfig) (wcat : WallCatalog)
    (db : ItemCatalog) (ecat : EnemyCatalog) (fuel : ℕ) (now : ℚ)
    (occ : Cell → Bool) (r0 : R.State) :
    (GenWorld × List EntityRec × List EnemyInst) × R.State :=
  let pg := init_grid_once R cfg wcat fuel r0
  let w : GenWorld :=
    { grid := pg.1, biomes := pg.2.1, centers := pg.2.2.1,
      walls := pg.2.2.2.1, doors := pg.2.2.2.2.1 }
  let pe := init_entities_once R db cfg w.centers w.grid occ
    (fun _ => false) [] pg.2.2.2.2.2
  let solid := solidCellsOf pe.1
  let pz := init_random_enemies_once R db ecat w.grid occ solid now pe.2.2
  ((w, pe.1, pz.1), pz.2)

/-! ## C2: generation determinism.  The wall-clock timestamp `now` feeds only
the enemies' movement timers, so two seeded runs agree on the grid, biome
field and all placements (enemy placements compared through
`enemyPlacement`, which drops the movement timer). -/

/-- Placement equality of two enemy lists: same length and, position by
position, the same placement content (everything except the movement
timer). -/
def placeEq (l1 l2 : List EnemyInst) : Prop :=
  l1.map enemyPlacement = l2.map enemyPlacement

/-- Placement-equal lists have the same length. -/
lemma placeEq_length {l1 l2 : List EnemyInst} (h : placeEq l1 l2) :
    l1.length = l2.length := by
  have := congrArg List.length h
  simpa using this

/-- Appending placement-equal enemies preserves placement equality. -/
lemma placeEq_append {l1 l2 : List EnemyInst} {a b : EnemyInst}
    (h : placeEq l1 l2) (hab : enemyPlacement a = enemyPlacement b) :
    placeEq (l1 ++ [a]) (l2 ++ [b]) := by
  unfold placeEq at h ⊢
  simp only [List.map_append, List.map_cons, List.map_nil, h, hab]

/-- States of the slime / sub-boss loops, related up to movement timers. -/
def stRel {σ : Type} (a b : List EnemyInst × σ) : Prop :=
  placeEq a.1 b.1 ∧ a.2 = b.2

/-- States of the big-boss loop, related up to movement timers. -/
def stRel2 {σ : Type} (a b : (List EnemyInst × List String) × σ) : Prop :=
  placeEq a.1.1 b.1.1 ∧ a.1.2 = b.1.2 ∧ a.2 = b.2

lemma stRel2_of_stRel {σ : Type} {a b : List EnemyInst × σ} (h : stRel a b) :
    stRel2 ((a.1, ([] : List String)), a.2) ((b.1, []), b.2) :=
  ⟨h.1, rfl, h.2⟩

/-- Folding two pointwise-related step functions from related states ends
in related states. -/
lemma foldl_rel {α β : Type} (P : β → β → Prop) {f g : β → α → β}
    (hf : ∀ b1 b2, P b1 b2 → ∀ a, P (f b1 a) (g b2 a)) :
    ∀ (l : List α) {b1 b2 : β}, P b1 b2 → P (l.foldl f b1) (l.foldl g b2) := by
  intro l
  induction l with
  | nil => intro b1 b2 h; exact h
  | cons a t ih => intro b1 b2 h; exact ih (hf b1 b2 h a)

/-- Overriding `carried` identically preserves placement equality. -/
lemma placement_with_carried {e1 e2 : EnemyInst} (l : List String)
    (h : enemyPlacement e1 = enemyPlacement e2) :
    enemyPlacement { e1 with carried := l } =
      enemyPlacement { e2 with carried := l } := by
  simp only [enemyPlacement, Prod.mk.injEq] at h ⊢
  tauto

/-- Overriding the three affinity fields identically preserves placement
equality. -/
lemma placement_with_affs {e1 e2 : EnemyInst} (f d v : Option String)
    (h : enemyPlacement e1 = enemyPlacement e2) :
    enemyPlacement
        { e1 with aff_fear := f, aff_desire := d, aff_vuln := v } =
      enemyPlacement
        { e2 with aff_fear := f, aff_desire := d, aff_vuln := v } := by
  simp only [enemyPlacement, Prod.mk.injEq] at h ⊢
  tauto

/-- `make_enemy_instance` at two wall-clock values: same placement and
same outgoing random state (`now` only shifts `next_move_ts`). -/
lemma make_enemy_instance_placement (R : RngImpl) (ecat : EnemyCatalog)
    (etype : String) (cx cy : ℤ) (now now₂ : ℚ) (count : ℕ)
    (rng : R.State) :
    enemyPlacement (make_enemy_instance R ecat etype cx cy now count rng).1 =
      enemyPlacement
        (make_enemy_instance R ecat etype cx cy now₂ count rng).1 ∧
    (make_enemy_instance R ecat etype cx cy now count rng).2 =
      (make_enemy_instance R ecat etype cx cy now₂ count rng).2 := by
  unfold make_enemy_instance enemyPlacement
  dsimp only
  split_ifs with h <;> exact ⟨rfl, rfl⟩

/-- `spawn_of_type` at two wall-clock values: same placement, same
outgoing random state. -/
lemma spawn_placement (R : RngImpl) (ecat : EnemyCatalog) (g : Grid)
    (occ solid : Cell → Bool) (tid : String) (now now₂ : ℚ) (len : ℕ)
    (rng : R.State) :
    enemyPlacement (spawn_of_type R ecat g occ solid tid now len rng).1 =
      enemyPlacement (spawn_of_type R ecat g occ solid tid now₂ len rng).1 ∧
    (spawn_of_type R ecat g occ solid tid now len rng).2 =
      (spawn_of_type R ecat g occ solid tid now₂ len rng).2 := by
  unfold spawn_of_type
  dsimp only
  exact make_enemy_instance_placement R ecat tid _ _ now now₂ len _

/-- One slime step preserves the up-to-timer state relation. -/
lemma slimeStep_congr (R : RngImpl) (ecat : EnemyCatalog) (g : Grid)
    (occ solid : Cell → Bool) (now now₂ : ℚ) (slime_types : List String)
    {st st' : List EnemyInst × R.State} (h : stRel st st') (p : ℕ × String) :
    stRel (slimeStep R ecat g occ solid now slime_types st p)
      (slimeStep R ecat g occ solid now₂ slime_types st' p) := by
  obtain ⟨h1, h2⟩ := h
  have hlen : st.1.length = st'.1.length := placeEq_length h1
  unfold slimeStep
  dsimp only
  rw [← hlen, ← h2]
  have hs := spawn_placement R ecat g occ solid
    (slime_types.getD (p.1 % max 1 slime_types.length) "") now now₂
    st.1.length st.2
  exact ⟨placeEq_append h1 (placement_with_carried [p.2] hs.1), hs.2⟩

/-- One sub-boss step preserves the up-to-timer state relation. -/
lemma subBossStep_congr (R : RngImpl) (ecat : EnemyCatalog) (g : Grid)
    (occ solid : Cell → Bool) (now now₂ : ℚ) (all_special : List String)
    {st st' : List EnemyInst × R.State} (h : stRel st st') (tid : String) :
    stRel (subBossStep R ecat g occ solid now all_special st tid)
      (subBossStep R ecat g occ solid now₂ all_special st' tid) := by
  obtain ⟨h1, h2⟩ := h
  have hlen : st.1.length = st'.1.length := placeEq_length h1
  unfold subBossStep
  dsimp only
  rw [← hlen, ← h2]
  have hs := spawn_placement R ecat g occ solid tid now now₂
    st.1.length st.2
  rw [← hs.2]
  exact ⟨placeEq_append h1 (placement_with_affs _ _ _ hs.1), rfl⟩

/-- One big-boss step preserves the up-to-timer state relation, including
the used-items list. -/
lemma bigBossStep_congr (R : RngImpl) (ecat : EnemyCatalog) (g : Grid)
    (occ solid : Cell → Bool) (now now₂ : ℚ) (all_special : List String)
    {st st' : (List EnemyInst × List String) × R.State}
    (h : stRel2 st st') (tid : String) :
    stRel2 (bigBossStep R ecat g occ solid now all_special st tid)
      (bigBossStep R ecat g occ solid now₂ all_special st' tid) := by
  obtain ⟨h1, h2, h3⟩ := h
  have hlen : st.1.1.length = st'.1.1.length := placeEq_length h1
  unfold bigBossStep
  dsimp only
  rw [← hlen, ← h2, ← h3]
  have hs := spawn_placement R ecat g occ solid tid now now₂
    st.1.1.length st.2
  rw [← hs.2]
  exact ⟨placeEq_append h1 (placement_with_affs _ _ _ hs.1), rfl, rfl⟩

/-- The guarded slime fold at two wall-clock values ends related. -/
lemma slimeIf_rel (R : RngImpl) (ecat : EnemyCatalog) (g : Grid)
    (occ solid : Cell → Bool) (now now₂ : ℚ) (slime_types : List String)
    (l : List (ℕ × String)) (r : R.State) :
    stRel
      (if slime_types.isEmpty then (([] : List EnemyInst), r)
        else l.foldl (slimeStep R ecat g occ solid now slime_types) ([], r))
      (if slime_types.isEmpty then (([] : List EnemyInst), r)
        else l.foldl (slimeStep R ecat g occ solid now₂ slime_types)
          ([], r)) := by
  by_cases hs : slime_types.isEmpty = true
  · simp only [if_pos hs]
    exact ⟨rfl, rfl⟩
  · simp only [if_neg hs]
    exact foldl_rel stRel (fun b1 b2 hb a =>
      slimeStep_congr R ecat g occ solid now now₂ slime_types hb a) l
      ⟨rfl, rfl⟩

/-- The sub-boss fold followed by the big-boss fold, from related initial
states, ends related. -/
lemma enemiesTail_rel (R : RngImpl) (ecat : EnemyCatalog) (g : Grid)
    (occ solid : Cell → Bool) (now now₂ : ℚ) (all_special : List String)
    (subb bigb : List String) {st1 st1' : List EnemyInst × R.State}
    (h1 : stRel st1 st1') :
    stRel2
      (bigb.foldl (bigBossStep R ecat g occ solid now all_special)
        (((subb.foldl (subBossStep R ecat g occ solid now all_special)
            st1).1, []),
          (subb.foldl (subBossStep R ecat g occ solid now all_special)
            st1).2))
      (bigb.foldl (bigBossStep R ecat g occ solid now₂ all_special)
        (((subb.foldl (subBossStep R ecat g occ solid now₂ all_special)
            st1').1, []),
          (subb.foldl (subBossStep R ecat g occ solid now₂ all_special)
            st1').2)) := by
  have h2 := foldl_rel stRel (fun b1 b2 hb a =>
    subBossStep_congr R ecat g occ solid now now₂ all_special hb a) subb h1
  exact foldl_rel stRel2 (fun b1 b2 hb a =>
    bigBossStep_congr R ecat g occ solid now now₂ all_special hb a) bigb
    (stRel2_of_stRel h2)

/-- `init_random_enemies_once` at two wall-clock values: the spawned
enemy lists agree on every placement and the outgoing random states are
equal. -/
lemma init_random_enemies_placement (R : RngImpl) (db : ItemCatalog)
    (ecat : EnemyCatalog) (g : Grid) (occ solid : Cell → Bool)
    (now now₂ : ℚ) (rng : R.State) :
    placeEq (init_random_enemies_once R db ecat g occ solid now rng).1
      (init_random_enemies_once R db ecat g occ solid now₂ rng).1 ∧
    (init_random_enemies_once R db ecat g occ solid now rng).2 =
      (init_random_enemies_once R db ecat g occ solid now₂ rng).2 := by
  unfold init_random_enemies_once
  by_cases hc : ((ecat.filter (fun p => p.1 ≠ "")).map Prod.fst).isEmpty
    = true
  · simp only [if_pos hc]
    constructor <;> trivial
  · simp only [if_neg hc]
    have h1 := slimeIf_rel R ecat g occ solid now now₂
      (if ((enemy_type_lists ecat).1.filter
            (fun t => t.startsWith "slime_")).isEmpty then
          (enemy_type_lists ecat).1
        else (enemy_type_lists ecat).1.filter
          (fun t => t.startsWith "slime_"))
      ((R.shuffle (special_item_ids db) rng).1.take 18).enum
      (R.shuffle (special_item_ids db) rng).2
    have h3 := enemiesTail_rel R ecat g occ solid now now₂
      (special_item_ids db) (enemy_type_lists ecat).2.1
      (enemy_type_lists ecat).2.2 h1
    exact ⟨h3.1, h3.2.2⟩

/-- A seeded `init_grid_once` ignores the incoming random state. -/
lemma init_grid_once_seeded (R : RngImpl) (cfg : GameConfig)
    (wcat : WallCatalog) (fuel : ℕ) {s : String}
    (hseed : cfg.seed = some s) (hne : s ≠ "") (r0 r0' : R.State) :
    init_grid_once R cfg wcat fuel r0 =
      init_grid_once R cfg wcat fuel r0' := by
  unfold init_grid_once
  rw [hseed]
  simp only [if_neg hne]

/-- C2: for every non-empty seed, two independent runs of the full
world-generation pipeline with the same configuration — whatever their
incoming random states and wall-clock readings — produce the identical
grid, biome field, biome centers, wall state and doors, the identical
entity placement list, and enemy spawns with identical placements (id,
type, position, heading, speed, carried items and affinities; the
movement timer is the only wall-clock-dependent field). -/
theorem C2_generation_determinism (R : RngImpl) (cfg : GameConfig)
    (wcat : WallCatalog) (db : ItemCatalog) (ecat : EnemyCatalog)
    (fuel : ℕ) (now now₂ : ℚ) (occ : Cell → Bool) (s : String)
    (hseed : cfg.seed = some s) (hne : s ≠ "") (r0 r0' : R.State) :
    (world_gen_pipeline R cfg wcat db ecat fuel now occ r0).1.1 =
      (world_gen_pipeline R cfg wcat db ecat fuel now₂ occ r0').1.1 ∧
    (world_gen_pipeline R cfg wcat db ecat fuel now occ r0).1.2.1 =
      (world_gen_pipeline R cfg wcat db ecat fuel now₂ occ r0').1.2.1 ∧
    ((world_gen_pipeline R cfg wcat db ecat fuel now occ r0).1.2.2).map
        enemyPlacement =
      ((world_gen_pipeline R cfg wcat db ecat fuel now₂ occ r0').1.2.2).map
        enemyPlacement := by
  have hg := init_grid_once_seeded R cfg wcat fuel hseed hne r0 r0'
  unfold world_gen_pipeline
  dsimp only
  rw [hg]
  refine ⟨rfl, rfl, ?_⟩
  exact (init_random_enemies_placement R db ecat _ _ _ now now₂ _).1

/-- Witness for C2 at concrete inputs: a configuration seeded with
"t", two different incoming random states and two different wall-clock
readings. -/
theorem C2_generation_determinism_witness :
    ({ seed := some "t" } : GameConfig).seed = some "t" ∧
    ("t" : String) ≠ "" ∧
    ((world_gen_pipeline natRng { seed := some "t" } [] [] [] 0 0
        (fun _ => false) (0 : ℕ)).1.1 =
      (world_gen_pipeline natRng { seed := some "t" } [] [] [] 0 1
        (fun _ => false) (1 : ℕ)).1.1 ∧
    (world_gen_pipeline natRng { seed := some "t" } [] [] [] 0 0
        (fun _ => false) (0 : ℕ)).1.2.1 =
      (world_gen_pipeline natRng { seed := some "t" } [] [] [] 0 1
        (fun _ => false) (1 : ℕ)).1.2.1 ∧
    ((world_gen_pipeline natRng { seed := some "t" } [] [] [] 0 0
        (fun _ => false) (0 : ℕ)).1.2.2).map enemyPlacement =
      ((world_gen_pipeline natRng { seed := some "t" } [] [] [] 0 1
        (fun _ => false) (1 : ℕ)).1.2.2).map enemyPlacement) :=
  ⟨rfl, by decide,
    C2_generation_determinism natRng { seed := some "t" } [] [] [] 0 0 1
      (fun _ => false) "t" rfl (by decide) (0 : ℕ) (1 : ℕ)⟩

end AID
